import Mathlib

/-!
Verification of the Share4Life blood-escalation core.

This file gives a shallow embedding, in Lean 4, of the blood subsystem of the
Share4Life application and proves the stated properties of its components:

* `blood/matching.py`   — city normalization, blood-group compatibility,
  city/radius donor matching;
* `blood/eligibility.py` — donor eligibility (90-day cooldown);
* `blood/models.py`     — `BloodDonation.mark_verified` fulfillment aggregation;
* `blood/realtime.py`   — `_send_ping` de-duplicated donor pings;
* `blood/management/commands/escalate_blood_requests.py` — the escalation
  state machine advanced by periodic scheduler ticks.

Python strings are modelled as `List Char` (wrapped in `String` at the model
boundary); timestamps as `Int` seconds; database rows as records in lists;
nullable columns as `Option`.  Python's `str.strip` / `str.split()` whitespace
set is modelled by `isPySpace`, and `str.lower` / `str.upper` by their ASCII
action (`asciiLower` / `asciiUpper`); all city keys and blood groups handled
by the code are ASCII.
-/

/-- Whitespace as recognised by Python `str.strip` / `str.split`. -/
def isPySpace (c : Char) : Bool :=
  c.toNat = 32 || c.toNat = 9 || c.toNat = 10 || c.toNat = 11 || c.toNat = 12 || c.toNat = 13

/-- ASCII action of Python `str.lower`. -/
def asciiLower (c : Char) : Char :=
  if 65 ≤ c.toNat ∧ c.toNat ≤ 90 then Char.ofNat (c.toNat + 32) else c

/-- ASCII action of Python `str.upper`. -/
def asciiUpper (c : Char) : Char :=
  if 97 ≤ c.toNat ∧ c.toNat ≤ 122 then Char.ofNat (c.toNat - 32) else c

/-- `l.strip()`. -/
def trimList (l : List Char) : List Char :=
  ((l.dropWhile isPySpace).reverse.dropWhile isPySpace).reverse

/-- Helper for `pyWords`: accumulates the current word (reversed). -/
def wordsAux : List Char → List Char → List (List Char)
  | [], acc => if acc.isEmpty then [] else [acc.reverse]
  | c :: cs, acc =>
    if isPySpace c then
      if acc.isEmpty then wordsAux cs [] else acc.reverse :: wordsAux cs []
    else wordsAux cs (c :: acc)

/-- Python `s.split()` (split on whitespace, dropping empty pieces). -/
def pyWords (l : List Char) : List (List Char) := wordsAux l []

/-- Python `" ".join(ws)`. -/
def joinSp : List (List Char) → List Char
  | [] => []
  | [w] => w
  | w :: ws => w ++ ' ' :: joinSp ws

/-- `" ".join(s.split())`: collapse runs of whitespace to single spaces. -/
def collapseWs (l : List Char) : List Char := joinSp (pyWords l)

/-- The character map of `s.replace("|", ",").replace("/", ",").replace(";", ",")`. -/
def sepToComma (c : Char) : Char :=
  if c = '|' ∨ c = '/' ∨ c = ';' then ',' else c

/-- `s.replace("|", ",").replace("/", ",").replace(";", ",")`. -/
def replaceSeps (l : List Char) : List Char := l.map sepToComma

/-- Helper for `splitComma`. -/
def splitCommaAux : List Char → List Char → List (List Char)
  | [], acc => [acc.reverse]
  | c :: cs, acc =>
    if c = ',' then acc.reverse :: splitCommaAux cs [] else splitCommaAux cs (c :: acc)

/-- Python `s.split(",")` (keeps empty pieces). -/
def splitComma (l : List Char) : List (List Char) := splitCommaAux l []

/-- `str.lower` over a whole string. -/
def lowerList (l : List Char) : List Char := l.map asciiLower

/-- `str.upper` over a whole string. -/
def upperList (l : List Char) : List Char := l.map asciiUpper

/-- `CITY_CANON` from `blood/matching.py`: synonym → canonical city key. -/
def CITY_CANON : List (List Char × List Char) :=
  [("ktm".data, "kathmandu".data),
   ("kathmandu".data, "kathmandu".data),
   ("kathmandu city".data, "kathmandu".data),
   ("kathmandu valley".data, "kathmandu".data),
   ("lalitpur".data, "lalitpur".data),
   ("patan".data, "lalitpur".data),
   ("lalitpur city".data, "lalitpur".data),
   ("bhaktapur".data, "bhaktapur".data),
   ("bkt".data, "bhaktapur".data)]

/-- Dictionary lookup in `CITY_CANON`. -/
def canonLookup (k : List Char) : Option (List Char) := CITY_CANON.lookup k

/-- The `for p in reversed(parts)` loop of `canonical_city` (the argument is
already reversed): try each part, then the last whitespace-token of the part. -/
def scanParts : List (List Char) → Option (List Char)
  | [] => none
  | p :: rest =>
    match canonLookup p with
    | some v => some v
    | none =>
      match (pyWords p).getLast? with
      | some lastTok =>
        match canonLookup lastTok with
        | some v => some v
        | none => scanParts rest
      | none => scanParts rest

/-- `parts = [p.strip() for p in raw.split(",") if p.strip()]` in
`canonical_city`. -/
def canonParts (raw : List Char) : List (List Char) :=
  ((splitComma raw).map trimList).filter (fun p => !p.isEmpty)

/-- The lookup cascade of `canonical_city` applied to the normalized string
`raw`: exact dictionary hit, comma-separated parts scanned from the end,
last whitespace token, then `CITY_CANON.get(raw, raw)` as fallback. -/
def canonCore (raw : List Char) : List Char :=
  match canonLookup raw with
  | some v => v
  | none =>
    match scanParts (canonParts raw).reverse with
    | some v => v
    | none =>
      match (pyWords raw).getLast? with
      | some lastTok =>
        match canonLookup lastTok with
        | some v => v
        | none => (canonLookup raw).getD raw
      | none => (canonLookup raw).getD raw

/-- The fully normalized `raw` value inside `canonical_city`: strip, lower,
collapse whitespace, replace `|` `/` `;` by commas. -/
def canonRaw (l : List Char) : List Char :=
  replaceSeps (collapseWs (lowerList (trimList l)))

/-- `canonical_city` from `blood/matching.py`, over `List Char`:
strip + lower, empty check, whitespace collapse, separator replacement,
then the lookup cascade. -/
def canonList (l : List Char) : List Char :=
  if (lowerList (trimList l)).isEmpty then []
  else canonCore (canonRaw l)

/-- `canonical_city` from `blood/matching.py`. -/
def canonical_city (s : String) : String := ⟨canonList s.data⟩

/-- `CANON_ALIASES` from `blood/matching.py`. -/
def CANON_ALIASES : List (List Char × List String) :=
  [("kathmandu".data, ["kathmandu", "ktm", "kathmandu city", "kathmandu valley"]),
   ("lalitpur".data, ["lalitpur", "patan", "lalitpur city"]),
   ("bhaktapur".data, ["bhaktapur", "bkt"])]

/-- `city_aliases` from `blood/matching.py` (`CANON_ALIASES.get(canon, {canon})`);
the Python `set` is modelled as a list, only membership is ever used. -/
def city_aliases (s : String) : List String :=
  let canon := canonical_city s
  match CANON_ALIASES.lookup canon.data with
  | some xs => xs
  | none => [canon]

/-- `COMPATIBLE_DONORS` from `blood/matching.py`: donor groups allowed for
each recipient group. -/
def COMPATIBLE_DONORS : List (String × List String) :=
  [("O-", ["O-"]),
   ("O+", ["O-", "O+"]),
   ("A-", ["O-", "A-"]),
   ("A+", ["O-", "O+", "A-", "A+"]),
   ("B-", ["O-", "B-"]),
   ("B+", ["O-", "O+", "B-", "B+"]),
   ("AB-", ["O-", "A-", "B-", "AB-"]),
   ("AB+", ["O-", "O+", "A-", "A+", "B-", "B+", "AB-", "AB+"])]

/-- `(x or "").strip().upper()` as used by `blood_group_allowed`; the argument
is an `Option` so that a Python `None` input is representable. -/
def stripUpper (x : Option String) : String :=
  ⟨upperList (trimList ((x.getD "").data))⟩

/-- `blood_group_allowed` from `blood/matching.py`.  The `if not allowed`
falsiness test covers both a missing key (`None`) and an empty set. -/
def blood_group_allowed (req_blood_group donor_blood_group : Option String) : Bool :=
  match COMPATIBLE_DONORS.lookup (stripUpper req_blood_group) with
  | none => false
  | some allowed =>
    if allowed.isEmpty then false else allowed.contains (stripUpper donor_blood_group)

/-- A row of `blood.models.BloodDonation` (the fields the core reads). -/
structure DonationRec where
  id : Nat
  request_id : Option Nat
  donor_user : Option Nat
  units : Nat
  status : String
  donated_at : Int
  verified_at : Option Int
  deriving DecidableEq, Repr

/-- A row of `blood.models.PublicBloodRequest` (the fields the core reads). -/
structure ReqRec where
  id : Nat
  blood_group : String
  location_city : String
  latitude : Option ℚ
  longitude : Option ℚ
  hospital_name : String
  units_needed : Int
  is_active : Bool
  created_at : Int
  is_emergency : Bool
  status : String
  fulfilled_at : Option Int
  created_by : Option Nat
  verification_status : String
  deriving DecidableEq, Repr

/-- `ELIGIBILITY_DAYS` from `blood/eligibility.py`. -/
def ELIGIBILITY_DAYS : Int := 90

/-- Fold step realising `order_by("-donated_at").first()`: keep the donation
with the greatest `donated_at`. -/
def pickLatest (acc : Option DonationRec) (d : DonationRec) : Option DonationRec :=
  match acc with
  | none => some d
  | some b => if b.donated_at < d.donated_at then some d else some b

/-- `last_verified_donation` from `blood/eligibility.py`: the user's VERIFIED
donation with the most recent `donated_at`. -/
def last_verified_donation (donations : List DonationRec) (userId : Nat) : Option DonationRec :=
  (donations.filter
    (fun d => decide (d.donor_user = some userId ∧ d.status = "VERIFIED"))).foldl pickLatest none

/-- `next_eligible_datetime` from `blood/eligibility.py` (timestamps in
seconds; `timedelta(days=90)` is `90 * 86400` seconds). -/
def next_eligible_datetime (donations : List DonationRec) (userId : Nat) : Option Int :=
  (last_verified_donation donations userId).map (fun d => d.donated_at + ELIGIBILITY_DAYS * 86400)

/-- `is_eligible` from `blood/eligibility.py`: `nxt is None or now >= nxt`. -/
def is_eligible (donations : List DonationRec) (userId : Nat) (now : Int) : Bool :=
  match next_eligible_datetime donations userId with
  | none => true
  | some nxt => decide (now ≥ nxt)

/-- The `Sum("units")` aggregate over VERIFIED donations of one request in
`BloodDonation.mark_verified` (`or 0` turns the empty aggregate into 0). -/
def verified_units_for (donations : List DonationRec) (rid : Nat) : Nat :=
  ((donations.filter
    (fun d => decide (d.request_id = some rid ∧ d.status = "VERIFIED"))).map (·.units)).sum

/-- Result of `BloodDonation.mark_verified`: the saved donation row, the
(possibly updated) linked request row, and the gamification points added to
the donor's profile. -/
structure MarkResult where
  donation : DonationRec
  request : ReqRec
  points_added : Int
  deriving Repr

/-- `BloodDonation.mark_verified` from `blood/models.py`.  `req` is the linked
request row (`self.request`) and `donations` the donation table; the aggregate
is taken after `self` is saved, i.e. over `donations` with `d` updated.
`int(req.units_needed or 1)` maps 0 to 1. -/
def mark_verified (d : DonationRec) (req : ReqRec) (donations : List DonationRec)
    (now : Int) : MarkResult :=
  if d.status = "VERIFIED" then ⟨d, req, 0⟩
  else
    let d' : DonationRec := { d with status := "VERIFIED", verified_at := some now }
    let pts : Int := match d.donor_user with
      | some _ => 150 + 20 * (d.units : Int)
      | none => 0
    match d.request_id with
    | none => ⟨d', req, pts⟩
    | some rid =>
      let updated := donations.map (fun x => if x.id = d.id then d' else x)
      let s := verified_units_for updated rid
      let needed : Int := if req.units_needed = 0 then 1 else req.units_needed
      if (s : Int) ≥ needed then
        ⟨d', { req with status := "FULFILLED", is_active := false, fulfilled_at := some now }, pts⟩
      else if req.status = "OPEN" then
        ⟨d', { req with status := "IN_PROGRESS" }, pts⟩
      else ⟨d', req, pts⟩

/-- A row of `blood.models.DonorResponse` (the fields the core reads). -/
structure RespRec where
  request_id : Nat
  donor_id : Nat
  status : String
  deriving DecidableEq, Repr

/-- A row of the `BloodDonorPingLog` table as read by `_send_ping`
(`values("id", "donor_id", "last_ping_at", "ping_count")` plus the updated
`stage` column); unique per (request, donor). -/
structure PingLogRec where
  request_id : Nat
  donor_id : Nat
  stage : String
  last_ping_at : Option Int
  ping_count : Nat
  deriving DecidableEq, Repr

/-- The donor-profile fields read by the matcher (`accounts` profile). -/
structure ProfileRec where
  city : Option String
  blood_group : String
  latitude : Option ℚ
  longitude : Option ℚ
  deriving DecidableEq, Repr

/-- A `CustomUser` row with its related profile. -/
structure UserRec where
  id : Nat
  is_active : Bool
  is_donor : Bool
  profile : ProfileRec
  deriving DecidableEq, Repr

/-- The per-donor admission test of the `_send_ping` loop in
`blood/realtime.py`: skip donors with any `DonorResponse` row for this
request, then apply the cooldown and max-repings checks against the
prefetched ping log. -/
def ping_allowed (reqId : Nat) (responses : List RespRec) (logs : List PingLogRec)
    (now cooldown : Int) (max_repings : Nat) (uid : Nat) : Bool :=
  if responses.any (fun r => decide (r.request_id = reqId ∧ r.donor_id = uid)) then false
  else
    match logs.find? (fun g => decide (g.request_id = reqId ∧ g.donor_id = uid)) with
    | none => true
    | some g =>
      if (match g.last_ping_at with
          | some t => decide (now - t < cooldown)
          | none => false) then false
      else if max_repings ≤ g.ping_count then false
      else true

/-- Result of `_send_ping`: the return value `sent`, the donors actually
pinged, the updated ping-log table, and the donors for whom a first-ping
persistent notification was created. -/
structure SendResult where
  sent : Nat
  pinged : List UserRec
  logs : List PingLogRec
  new_notifications : List Nat
  deriving Repr

/-- The `get_or_create` / `update` of a `BloodDonorPingLog` row in
`_send_ping`. -/
def upsertLog (logs : List PingLogRec) (reqId uid : Nat) (stage : String)
    (now : Int) : List PingLogRec :=
  if (logs.find? (fun g => decide (g.request_id = reqId ∧ g.donor_id = uid))).isSome then
    logs.map (fun g =>
      if g.request_id = reqId ∧ g.donor_id = uid then
        { g with stage := stage, last_ping_at := some now, ping_count := g.ping_count + 1 }
      else g)
  else logs ++ [⟨reqId, uid, stage, some now, 1⟩]

/-- `_send_ping` from `blood/realtime.py`.  The per-donor skip decisions use
the response and ping-log tables as prefetched before the loop; the websocket
payload itself is a fire-and-forget side effect and is not modelled beyond
membership in `pinged`. -/
def send_ping (req : ReqRec) (donors : List UserRec) (stage : String)
    (responses : List RespRec) (logs : List PingLogRec)
    (now cooldown : Int) (max_repings : Nat) : SendResult :=
  let pinged := donors.filter
    (fun u => ping_allowed req.id responses logs now cooldown max_repings u.id)
  { sent := pinged.length
    pinged := pinged
    logs := pinged.foldl (fun ls u => upsertLog ls req.id u.id stage now) logs
    new_notifications := (pinged.filter (fun u =>
      (logs.find? (fun g => decide (g.request_id = req.id ∧ g.donor_id = u.id))).isNone)).map
        (·.id) }

/-- `eligible_donors_queryset` from `blood/matching.py`. -/
def eligible_donors_queryset (users : List UserRec) : List UserRec :=
  users.filter (fun u => u.is_active && u.is_donor)

/-- Django `iexact`: case-insensitive string equality. -/
def strEqCI (a b : String) : Bool := lowerList a.data == lowerList b.data

/-- `match_city` from `blood/matching.py`: alias-based storage prefilter,
then exact canonical-city comparison, eligibility and compatibility. -/
def match_city (req : ReqRec) (users : List UserRec) (donations : List DonationRec)
    (now : Int) : List UserRec :=
  let req_city : String := ⟨trimList req.location_city.data⟩
  if req_city.data.isEmpty then []
  else
    let aliases := city_aliases req_city
    let targetCanon := aliases.map canonical_city
    let qs0 := (eligible_donors_queryset users).filter
      (fun u => decide (u.profile.city ≠ none) && decide (u.profile.city ≠ some ""))
    let qs := if aliases.any (fun a => !a.data.isEmpty) then
        qs0.filter (fun u => aliases.any (fun a => !a.data.isEmpty && strEqCI (u.profile.city.getD "") a))
      else qs0
    qs.filter (fun u =>
      targetCanon.contains (canonical_city (u.profile.city.getD "")) &&
      is_eligible donations u.id now &&
      blood_group_allowed (some req.blood_group) (some u.profile.blood_group))

/-- `match_radius` from `blood/matching.py`.  The source computes great-circle
distance with `haversine_km`, IEEE-754 floating-point trigonometry; the
distance function is abstracted as the parameter `distKm`, so every theorem
about `match_radius` holds for the haversine distance in particular. -/
def match_radius (req : ReqRec) (users : List UserRec) (donations : List DonationRec)
    (now : Int) (radius_km : ℚ) (distKm : ℚ → ℚ → ℚ → ℚ → ℚ) : List UserRec :=
  match req.latitude, req.longitude with
  | some rlat, some rlon =>
    (eligible_donors_queryset users).filter (fun u =>
      is_eligible donations u.id now &&
      blood_group_allowed (some req.blood_group) (some u.profile.blood_group) &&
      (match u.profile.latitude, u.profile.longitude with
       | some lat, some lon => decide (distKm rlat rlon lat lon ≤ radius_km)
       | _, _ => false))
  | _, _ => []

/-- A row of `hospitals.Organization` (fields read by the escalation command). -/
structure OrgRec where
  id : Nat
  status : String
  city : String
  deriving DecidableEq, Repr

/-- A row of `hospitals.OrganizationMembership` (fields read by the command). -/
structure MembershipRec where
  organization_id : Nat
  user_id : Nat
  is_active : Bool
  role : String
  deriving DecidableEq, Repr

/-- `_notify_orgs_in_city` from `escalate_blood_requests.py`: the user ids of
the notified organization members. -/
def notify_orgs_in_city (city : String) (orgs : List OrgRec)
    (members : List MembershipRec) : List Nat :=
  let c : String := ⟨trimList city.data⟩
  if c.data.isEmpty then []
  else
    let approved := orgs.filter (fun o => decide (o.status = "APPROVED") && strEqCI o.city c)
    if approved.isEmpty then []
    else
      (members.filter (fun m =>
        approved.any (fun o => decide (o.id = m.organization_id)) &&
        m.is_active &&
        ["ADMIN", "VERIFIER", "STAFF"].contains m.role)).map (·.user_id)

/-- A row of the `BloodEscalationState` table (one-to-one with a request). -/
structure EscStateRec where
  stage : String
  next_run_at : Option Int
  last_run_at : Option Int
  is_done : Bool
  deriving DecidableEq, Repr

/-- Modelled from the spec: `BloodEscalationState.schedule_next(minutes=m)`.
The `BloodEscalationState` model class itself is not among the provided
sources (only its callers are); per spec §4.4 every stage transition
"schedules `nextRunAt = now + interval`", so the method is modelled as
returning `now` plus `m` minutes. -/
def schedule_next (now minutes : Int) : Option Int := some (now + minutes * 60)

/-- The queryset filter of `Command.handle`: emergency, active, OPEN or
IN_PROGRESS, not verification-REJECTED. -/
def request_in_scope (req : ReqRec) : Bool :=
  req.is_emergency && req.is_active &&
  (decide (req.status = "OPEN") || decide (req.status = "IN_PROGRESS")) &&
  !(decide (req.verification_status = "REJECTED"))

/-- Whether the escalation state is due at `now`: the loop skips a request
when `next_run_at` is non-null and still in the future. -/
def state_due (st : EscStateRec) (now : Int) : Bool :=
  match st.next_run_at with
  | some t => decide (t ≤ now)
  | none => true

/-- Everything one loop iteration of `Command.handle` produces for a single
request: the (unchanged) request row, the saved escalation state, the stages
passed to `push_ping_stage`, the user ids notified at the ORG stage, and the
titles of notifications sent to the requester. -/
structure TickResult where
  request : ReqRec
  state : EscStateRec
  pings : List String
  org_notified : List Nat
  requester_notices : List String
  deriving Repr

/-- The stage transition table of `Command.handle` (lines 111–212 of
`escalate_blood_requests.py`), reached by a due tick with no termination
condition.  `pingSent` gives the return value of `push_ping_stage` for a
stage (its internals are modelled by `send_ping`). -/
def stage_transition (req : ReqRec) (st : EscStateRec) (orgs : List OrgRec)
    (members : List MembershipRec) (pingSent : String → Nat)
    (now loop_interval_minutes : Int) : TickResult :=
  let has_gps := req.latitude.isSome && req.longitude.isSome
  if st.stage = "CITY" then
    if has_gps then
      ⟨req, ⟨"RADIUS_5", schedule_next now 1, some now, false⟩, ["RADIUS_5"], [],
       match req.created_by with
       | some _ => [if pingSent "RADIUS_5" > 0 then "Emergency escalation started"
                    else "Emergency escalation update"]
       | none => []⟩
    else
      ⟨req, ⟨"ORG", schedule_next now 1, some now, false⟩, [], [],
       match req.created_by with
       | some _ => ["Emergency escalation started"]
       | none => []⟩
  else if st.stage = "RADIUS_5" then
    if has_gps then
      ⟨req, ⟨"RADIUS_10", schedule_next now 1, some now, false⟩, ["RADIUS_10"], [],
       match req.created_by with
       | some _ => ["Emergency escalation update"]
       | none => []⟩
    else ⟨req, ⟨"ORG", schedule_next now 1, some now, false⟩, [], [], []⟩
  else if st.stage = "RADIUS_10" then
    ⟨req, ⟨"ORG", schedule_next now 1, some now, false⟩,
     if has_gps then ["RADIUS_10"] else [], [], []⟩
  else if st.stage = "ORG" then
    ⟨req, ⟨"LOOP", schedule_next now loop_interval_minutes, some now, false⟩, [],
     notify_orgs_in_city req.location_city orgs members, []⟩
  else if st.stage = "LOOP" then
    ⟨req, ⟨"LOOP", schedule_next now loop_interval_minutes, some now, false⟩,
     "CITY" :: (if has_gps then ["RADIUS_10"] else []), [], []⟩
  else
    ⟨req, ⟨"DONE", none, some now, true⟩, [], [], []⟩

/-- The body of the per-request loop in `Command.handle` of
`escalate_blood_requests.py` (lines 80–212): skip if done or not due, run the
termination checks, then the stage transition table.  `responses` and
`donations` are the relevant tables. -/
def handleOne (req : ReqRec) (st : EscStateRec) (responses : List RespRec)
    (donations : List DonationRec) (orgs : List OrgRec) (members : List MembershipRec)
    (pingSent : String → Nat) (now max_minutes loop_interval_minutes : Int) : TickResult :=
  if st.is_done then ⟨req, st, [], [], []⟩
  else if (match st.next_run_at with
           | some t => decide (now < t)
           | none => false) then ⟨req, st, [], [], []⟩
  else if responses.any (fun r => decide (r.request_id = req.id ∧ r.status = "ACCEPTED"))
       || donations.any (fun d => decide (d.request_id = some req.id))
       || !req.is_active
       || decide (req.status = "FULFILLED")
       || decide (req.status = "CANCELLED") then
    ⟨req, ⟨"DONE", none, some now, true⟩, [], [], []⟩
  else if req.created_at < now - max_minutes * 60 then
    ⟨req, ⟨"DONE", none, some now, true⟩, [], [], []⟩
  else
    stage_transition req st orgs members pingSent now loop_interval_minutes

/-- The stage ordering of the escalation pipeline:
CITY → RADIUS_5 → RADIUS_10 → ORG → LOOP → LOOP → …. -/
def succStage : String → String
  | "CITY" => "RADIUS_5"
  | "RADIUS_5" => "RADIUS_10"
  | "RADIUS_10" => "ORG"
  | "ORG" => "LOOP"
  | "LOOP" => "LOOP"
  | _ => "DONE"

/-! ### Character-level lemmas -/

theorem char_toNat_ofNat (n : Nat) (h : n < 55296) : (Char.ofNat n).toNat = n := by
  unfold Char.ofNat
  rw [dif_pos (Or.inl h)]
  simp [Char.ofNatAux, Char.toNat, UInt32.ofNatCore, UInt32.toNat]

theorem asciiLower_idem (c : Char) : asciiLower (asciiLower c) = asciiLower c := by
  by_cases h : 65 ≤ c.toNat ∧ c.toNat ≤ 90
  · have hval : asciiLower c = Char.ofNat (c.toNat + 32) := by
      rw [asciiLower, if_pos h]
    have h32 : (Char.ofNat (c.toNat + 32)).toNat = c.toNat + 32 :=
      char_toNat_ofNat _ (by omega)
    rw [hval, asciiLower, if_neg (by omega)]
  · have hval : asciiLower c = c := by rw [asciiLower, if_neg h]
    rw [hval, hval]

theorem asciiUpper_idem (c : Char) : asciiUpper (asciiUpper c) = asciiUpper c := by
  by_cases h : 97 ≤ c.toNat ∧ c.toNat ≤ 122
  · have hval : asciiUpper c = Char.ofNat (c.toNat - 32) := by
      rw [asciiUpper, if_pos h]
    have h32 : (Char.ofNat (c.toNat - 32)).toNat = c.toNat - 32 :=
      char_toNat_ofNat _ (by omega)
    rw [hval, asciiUpper, if_neg (by omega)]
  · have hval : asciiUpper c = c := by rw [asciiUpper, if_neg h]
    rw [hval, hval]

theorem isPySpace_asciiUpper (c : Char) : isPySpace (asciiUpper c) = isPySpace c := by
  by_cases h : 97 ≤ c.toNat ∧ c.toNat ≤ 122
  · have hval : asciiUpper c = Char.ofNat (c.toNat - 32) := by
      rw [asciiUpper, if_pos h]
    have h32 : (Char.ofNat (c.toNat - 32)).toNat = c.toNat - 32 :=
      char_toNat_ofNat _ (by omega)
    have e1 : isPySpace (Char.ofNat (c.toNat - 32)) = false := by
      simp only [isPySpace, h32]
      simp only [Bool.or_eq_false_iff, decide_eq_false_iff_not]
      omega
    have e2 : isPySpace c = false := by
      simp only [isPySpace, Bool.or_eq_false_iff, decide_eq_false_iff_not]
      omega
    rw [hval, e1, e2]
  · rw [asciiUpper, if_neg h]

theorem isPySpace_sepToComma (c : Char) : isPySpace (sepToComma c) = isPySpace c := by
  by_cases h : c = '|' ∨ c = '/' ∨ c = ';'
  · have hval : sepToComma c = ',' := by rw [sepToComma, if_pos h]
    rw [hval]
    rcases h with h | h | h <;> subst h <;> decide
  · rw [sepToComma, if_neg h]

theorem sepToComma_idem (c : Char) : sepToComma (sepToComma c) = sepToComma c := by
  by_cases h : c = '|' ∨ c = '/' ∨ c = ';'
  · have hval : sepToComma c = ',' := by rw [sepToComma, if_pos h]
    rw [hval]
    decide
  · have hval : sepToComma c = c := by rw [sepToComma, if_neg h]
    rw [hval, hval]

theorem asciiLower_sepToComma_fix (c : Char) (h : asciiLower c = c) :
    asciiLower (sepToComma c) = sepToComma c := by
  by_cases hs : c = '|' ∨ c = '/' ∨ c = ';'
  · have hval : sepToComma c = ',' := by rw [sepToComma, if_pos hs]
    rw [hval]
    decide
  · have hval : sepToComma c = c := by rw [sepToComma, if_neg hs]
    rw [hval, h]

/-! ### `dropWhile` / `trimList` lemmas -/

theorem dropWhile_dropWhile (p : Char → Bool) (l : List Char) :
    (l.dropWhile p).dropWhile p = l.dropWhile p := by
  induction l with
  | nil => rfl
  | cons c cs ih =>
    by_cases h : p c
    · simp [List.dropWhile_cons, h, ih]
    · simp [List.dropWhile_cons, h]

theorem head?_dropWhile (p : Char → Bool) (l : List Char) (c : Char)
    (h : (l.dropWhile p).head? = some c) : p c = false := by
  induction l with
  | nil => simp at h
  | cons x xs ih =>
    rw [List.dropWhile_cons] at h
    split at h
    · exact ih h
    · rename_i hx
      simp at h
      subst h
      simpa using hx

theorem dropWhile_eq_self_of_head (p : Char → Bool) (l : List Char) (c : Char)
    (hh : l.head? = some c) (hc : p c = false) : l.dropWhile p = l := by
  cases l with
  | nil => rfl
  | cons x xs =>
    simp at hh
    subst hh
    simp [List.dropWhile_cons, hc]

theorem getLast?_dropWhile (p : Char → Bool) (l : List Char) :
    l.dropWhile p = [] ∨ (l.dropWhile p).getLast? = l.getLast? := by
  induction l with
  | nil => exact Or.inl rfl
  | cons x xs ih =>
    rw [List.dropWhile_cons]
    split
    · rcases ih with h | h
      · exact Or.inl h
      · cases xs with
        | nil => exact Or.inl (by simp)
        | cons y ys => exact Or.inr (by rw [h, List.getLast?_cons_cons])
    · exact Or.inr rfl

theorem trimList_head_clean (l : List Char) :
    (trimList l).dropWhile isPySpace = trimList l := by
  cases hXr : trimList l with
  | nil => rfl
  | cons c cs =>
    have hc : isPySpace c = false := by
      have h1 : ((l.dropWhile isPySpace).reverse.dropWhile isPySpace).reverse.head? = some c := by
        rw [show ((l.dropWhile isPySpace).reverse.dropWhile isPySpace).reverse = trimList l
            from rfl, hXr]
        rfl
      rw [List.head?_reverse] at h1
      rcases getLast?_dropWhile isPySpace (l.dropWhile isPySpace).reverse with hnil | hlast
      · rw [hnil] at h1
        simp at h1
      · rw [hlast, List.getLast?_reverse] at h1
        exact head?_dropWhile isPySpace l c h1
    simp [List.dropWhile_cons, hc]

theorem trimList_idem (l : List Char) : trimList (trimList l) = trimList l := by
  show (((trimList l).dropWhile isPySpace).reverse.dropWhile isPySpace).reverse = trimList l
  rw [trimList_head_clean]
  have hrev : (trimList l).reverse = (l.dropWhile isPySpace).reverse.dropWhile isPySpace := by
    show (((l.dropWhile isPySpace).reverse.dropWhile isPySpace).reverse).reverse = _
    rw [List.reverse_reverse]
  rw [hrev, dropWhile_dropWhile, ← hrev, List.reverse_reverse]

theorem trimList_map (h : Char → Char) (hsp : ∀ c, isPySpace (h c) = isPySpace c)
    (l : List Char) : trimList (l.map h) = (trimList l).map h := by
  have hdw : ∀ m : List Char, (m.map h).dropWhile isPySpace = (m.dropWhile isPySpace).map h := by
    intro m
    induction m with
    | nil => rfl
    | cons c cs ih =>
      by_cases hc : isPySpace c
      · simp [List.dropWhile_cons, hsp, hc, ih]
      · simp [List.dropWhile_cons, hsp, hc]
  unfold trimList
  rw [hdw, ← List.map_reverse, hdw, List.map_reverse]

/-! ### `pyWords` / `joinSp` / `collapseWs` lemmas -/

/-- The output invariant of `pyWords`: every word is nonempty and free of
whitespace. -/
def GoodWords (ws : List (List Char)) : Prop :=
  ∀ w ∈ ws, w ≠ [] ∧ ∀ c ∈ w, isPySpace c = false

theorem wordsAux_good (l : List Char) :
    ∀ acc : List Char, (∀ c ∈ acc, isPySpace c = false) → GoodWords (wordsAux l acc) := by
  induction l with
  | nil =>
    intro acc hacc
    by_cases h : acc.isEmpty
    · simp [wordsAux, h, GoodWords]
    · simp only [wordsAux, h, if_false, Bool.false_eq_true]
      intro w hw
      simp only [List.mem_singleton] at hw
      subst hw
      refine ⟨?_, ?_⟩
      · simp only [ne_eq, List.reverse_eq_nil_iff]
        intro hnil
        rw [hnil] at h
        exact h rfl
      · intro c hc
        exact hacc c (List.mem_reverse.mp hc)
  | cons c cs ih =>
    intro acc hacc
    by_cases hc : isPySpace c
    · by_cases ha : acc.isEmpty
      · simp only [wordsAux, hc, if_true, ha]
        exact ih [] (by simp)
      · simp only [wordsAux, hc, if_true, ha, if_false, Bool.false_eq_true]
        intro w hw
        rcases List.mem_cons.mp hw with hw | hw
        · subst hw
          refine ⟨?_, fun d hd => hacc d (List.mem_reverse.mp hd)⟩
          simp only [ne_eq, List.reverse_eq_nil_iff]
          intro hnil
          rw [hnil] at ha
          exact ha rfl
        · exact ih [] (by simp) w hw
    · simp only [wordsAux, hc, if_false, Bool.false_eq_true]
      refine ih (c :: acc) ?_
      intro d hd
      rcases List.mem_cons.mp hd with hd | hd
      · subst hd
        exact Bool.eq_false_iff.mpr hc
      · exact hacc d hd

theorem wordsAux_append_nonspace (w : List Char) (rest : List Char)
    (hw : ∀ c ∈ w, isPySpace c = false) :
    ∀ acc, wordsAux (w ++ rest) acc = wordsAux rest (w.reverse ++ acc) := by
  induction w with
  | nil => intro acc; rfl
  | cons c w' ih =>
    intro acc
    have hc : isPySpace c = false := hw c (List.mem_cons_self c w')
    simp only [List.cons_append, wordsAux, hc, Bool.false_eq_true, if_false, List.append_eq]
    rw [ih (fun d hd => hw d (List.mem_cons_of_mem c hd)) (c :: acc)]
    congr 1
    simp [List.append_assoc]

theorem wordsAux_joinSp (ws : List (List Char)) (h : GoodWords ws) :
    wordsAux (joinSp ws) [] = ws := by
  induction ws with
  | nil => rfl
  | cons w ws' ih =>
    obtain ⟨hne, hch⟩ := h w (List.mem_cons_self w ws')
    have htail : GoodWords ws' := fun x hx => h x (List.mem_cons_of_mem w hx)
    cases ws' with
    | nil =>
      show wordsAux (joinSp [w]) [] = [w]
      have : joinSp [w] = w ++ [] := by simp [joinSp]
      rw [this, wordsAux_append_nonspace w [] hch []]
      simp only [wordsAux, List.append_nil]
      rw [if_neg (by simp [List.isEmpty_iff, hne])]
      simp
    | cons w2 ws'' =>
      have : joinSp (w :: w2 :: ws'') = w ++ (' ' :: joinSp (w2 :: ws'')) := by
        simp [joinSp]
      rw [this, wordsAux_append_nonspace w _ hch []]
      simp only [wordsAux, List.append_nil]
      rw [if_pos (by decide)]
      rw [if_neg (by simp [List.isEmpty_iff, hne])]
      rw [List.reverse_reverse, ih htail]

theorem isEmpty_map (h : Char → Char) (l : List Char) : (l.map h).isEmpty = l.isEmpty := by
  cases l <;> rfl

theorem wordsAux_map (h : Char → Char) (hsp : ∀ c, isPySpace (h c) = isPySpace c)
    (l : List Char) :
    ∀ acc, wordsAux (l.map h) (acc.map h) = (wordsAux l acc).map (List.map h) := by
  induction l with
  | nil =>
    intro acc
    simp only [List.map_nil, wordsAux, isEmpty_map]
    by_cases ha : acc.isEmpty
    · simp [ha]
    · simp [ha, List.map_reverse]
  | cons c cs ih =>
    intro acc
    simp only [List.map_cons, wordsAux, hsp c, isEmpty_map]
    by_cases hc : isPySpace c
    · by_cases ha : acc.isEmpty
      · simp only [hc, if_true, ha, if_true]
        exact ih []
      · simp only [hc, if_true, ha, Bool.false_eq_true, if_false]
        have h0 := ih []
        simp only [List.map_nil] at h0
        rw [List.map_cons, h0, List.map_reverse]
    · simp only [hc, Bool.false_eq_true, if_false]
      have h0 := ih (c :: acc)
      simp only [List.map_cons] at h0
      exact h0

theorem mem_wordsAux (l : List Char) :
    ∀ acc w c, w ∈ wordsAux l acc → c ∈ w → c ∈ l ∨ c ∈ acc := by
  induction l with
  | nil =>
    intro acc w c hw hc
    by_cases ha : acc.isEmpty
    · simp [wordsAux, ha] at hw
    · simp only [wordsAux, ha, Bool.false_eq_true, if_false, List.mem_singleton] at hw
      subst hw
      exact Or.inr (List.mem_reverse.mp hc)
  | cons x xs ih =>
    intro acc w c hw hc
    by_cases hx : isPySpace x
    · by_cases ha : acc.isEmpty
      · simp only [wordsAux, hx, if_true, ha] at hw
        rcases ih [] w c hw hc with h | h
        · exact Or.inl (List.mem_cons_of_mem x h)
        · simp at h
      · simp only [wordsAux, hx, if_true, ha, Bool.false_eq_true, if_false] at hw
        rcases List.mem_cons.mp hw with hw | hw
        · subst hw
          exact Or.inr (List.mem_reverse.mp hc)
        · rcases ih [] w c hw hc with h | h
          · exact Or.inl (List.mem_cons_of_mem x h)
          · simp at h
    · simp only [wordsAux, hx, Bool.false_eq_true, if_false] at hw
      rcases ih (x :: acc) w c hw hc with h | h
      · exact Or.inl (List.mem_cons_of_mem x h)
      · rcases List.mem_cons.mp h with h | h
        · exact Or.inl (h ▸ List.mem_cons_self x xs)
        · exact Or.inr h

theorem joinSp_concat (xs : List (List Char)) (y : List Char) :
    joinSp (xs ++ [y]) = if xs.isEmpty then y else joinSp xs ++ ' ' :: y := by
  induction xs with
  | nil => simp [joinSp]
  | cons x xs' ih =>
    cases xs' with
    | nil => simp [joinSp]
    | cons x2 xs'' =>
      have e1 : (x :: x2 :: xs'') ++ [y] = x :: x2 :: (xs'' ++ [y]) := by simp
      rw [e1]
      have h1 : joinSp (x :: x2 :: (xs'' ++ [y])) = x ++ ' ' :: joinSp (x2 :: (xs'' ++ [y])) := by
        simp [joinSp]
      rw [h1]
      have e2 : x2 :: (xs'' ++ [y]) = (x2 :: xs'') ++ [y] := by simp
      rw [e2, ih, if_neg (by simp)]
      have h2 : joinSp (x :: x2 :: xs'') = x ++ ' ' :: joinSp (x2 :: xs'') := by
        simp [joinSp]
      rw [if_neg (by simp), h2]
      simp [List.append_assoc]

theorem joinSp_reverse (ws : List (List Char)) :
    (joinSp ws).reverse = joinSp ((ws.map List.reverse).reverse) := by
  induction ws with
  | nil => rfl
  | cons w ws' ih =>
    cases ws' with
    | nil => simp [joinSp]
    | cons w2 ws'' =>
      have h2 : joinSp (w :: w2 :: ws'') = w ++ ' ' :: joinSp (w2 :: ws'') := by
        simp [joinSp]
      rw [h2, List.reverse_append, List.reverse_cons, ih]
      have e1 : (List.map List.reverse (w :: w2 :: ws'')).reverse
          = (List.map List.reverse (w2 :: ws'')).reverse ++ [w.reverse] := by
        simp
      rw [e1, joinSp_concat, if_neg (by simp)]
      simp [List.append_assoc]

theorem joinSp_map (h : Char → Char) (hh : h ' ' = ' ') (ws : List (List Char)) :
    joinSp (ws.map (List.map h)) = (joinSp ws).map h := by
  induction ws with
  | nil => rfl
  | cons w ws' ih =>
    cases ws' with
    | nil => simp [joinSp]
    | cons w2 ws'' =>
      have h2 : joinSp (w :: w2 :: ws'') = w ++ ' ' :: joinSp (w2 :: ws'') := by
        simp [joinSp]
      have h3 : joinSp (List.map h w :: List.map h w2 :: List.map (List.map h) ws'') =
          List.map h w ++ ' ' :: joinSp (List.map h w2 :: List.map (List.map h) ws'') := by
        simp [joinSp]
      have ih' := ih
      simp only [List.map_cons] at ih'
      simp only [List.map_cons]
      rw [h3, ih', h2]
      simp [hh]

theorem mem_joinSp (ws : List (List Char)) (c : Char) (h : c ∈ joinSp ws) :
    c = ' ' ∨ ∃ w ∈ ws, c ∈ w := by
  induction ws with
  | nil => simp [joinSp] at h
  | cons w ws' ih =>
    cases ws' with
    | nil =>
      right
      exact ⟨w, List.mem_cons_self w [], by simpa [joinSp] using h⟩
    | cons w2 ws'' =>
      have h2 : joinSp (w :: w2 :: ws'') = w ++ ' ' :: joinSp (w2 :: ws'') := by
        simp [joinSp]
      rw [h2, List.mem_append, List.mem_cons] at h
      rcases h with h | h | h
      · exact Or.inr ⟨w, List.mem_cons_self w _, h⟩
      · exact Or.inl h
      · rcases ih h with h | ⟨w', hw', hc⟩
        · exact Or.inl h
        · exact Or.inr ⟨w', List.mem_cons_of_mem w hw', hc⟩

theorem goodWords_pyWords (l : List Char) : GoodWords (pyWords l) :=
  wordsAux_good l [] (by simp)

theorem pyWords_map (h : Char → Char) (hsp : ∀ c, isPySpace (h c) = isPySpace c)
    (l : List Char) : pyWords (l.map h) = (pyWords l).map (List.map h) := by
  have := wordsAux_map h hsp l []
  simpa [pyWords] using this

theorem collapseWs_idem (l : List Char) : collapseWs (collapseWs l) = collapseWs l := by
  show joinSp (pyWords (joinSp (pyWords l))) = joinSp (pyWords l)
  rw [show pyWords (joinSp (pyWords l)) = wordsAux (joinSp (pyWords l)) [] from rfl]
  rw [wordsAux_joinSp (pyWords l) (goodWords_pyWords l)]

theorem collapseWs_map (h : Char → Char) (hsp : ∀ c, isPySpace (h c) = isPySpace c)
    (hh : h ' ' = ' ') (l : List Char) : collapseWs (l.map h) = (collapseWs l).map h := by
  show joinSp (pyWords (l.map h)) = (joinSp (pyWords l)).map h
  rw [pyWords_map h hsp, joinSp_map h hh]

theorem dropWhile_joinSp (ws : List (List Char)) (h : GoodWords ws) :
    (joinSp ws).dropWhile isPySpace = joinSp ws := by
  cases ws with
  | nil => rfl
  | cons w t =>
    obtain ⟨hne, hch⟩ := h w (List.mem_cons_self w t)
    cases w with
    | nil => exact absurd rfl hne
    | cons c w'' =>
      have hc : isPySpace c = false := hch c (List.mem_cons_self c w'')
      have hz : ∃ z, joinSp ((c :: w'') :: t) = c :: z := by
        cases t with
        | nil => exact ⟨w'', rfl⟩
        | cons w2 t' => exact ⟨w'' ++ ' ' :: joinSp (w2 :: t'), by simp [joinSp]⟩
      obtain ⟨z, hz⟩ := hz
      rw [hz, List.dropWhile_cons, hc]
      simp

theorem goodWords_reverse (ws : List (List Char)) (h : GoodWords ws) :
    GoodWords ((ws.map List.reverse).reverse) := by
  intro w hw
  rw [List.mem_reverse, List.mem_map] at hw
  obtain ⟨w0, hw0, rfl⟩ := hw
  obtain ⟨hne, hch⟩ := h w0 hw0
  exact ⟨by simpa using hne, fun c hc => hch c (List.mem_reverse.mp hc)⟩

theorem trim_collapse (l : List Char) : trimList (collapseWs l) = collapseWs l := by
  have h1 : (collapseWs l).dropWhile isPySpace = collapseWs l :=
    dropWhile_joinSp _ (goodWords_pyWords l)
  have h2 : (collapseWs l).reverse.dropWhile isPySpace = (collapseWs l).reverse := by
    show ((joinSp (pyWords l)).reverse).dropWhile isPySpace = (joinSp (pyWords l)).reverse
    rw [joinSp_reverse]
    exact dropWhile_joinSp _ (goodWords_reverse _ (goodWords_pyWords l))
  show (((collapseWs l).dropWhile isPySpace).reverse.dropWhile isPySpace).reverse = collapseWs l
  rw [h1, h2, List.reverse_reverse]

/-! ### The normalized `raw` string is a fixed point of normalization -/

theorem trim_canonRaw (l : List Char) : trimList (canonRaw l) = canonRaw l := by
  show trimList ((collapseWs (lowerList (trimList l))).map sepToComma) = _
  rw [trimList_map sepToComma isPySpace_sepToComma, trim_collapse]
  rfl

theorem mem_canonRaw_lower_fix (l : List Char) :
    ∀ c ∈ canonRaw l, asciiLower c = c := by
  intro c hc
  obtain ⟨c', hc', rfl⟩ := List.mem_map.mp hc
  apply asciiLower_sepToComma_fix
  rcases mem_joinSp _ _ hc' with h | ⟨w, hw, hcw⟩
  · subst h
    decide
  · have : c' ∈ lowerList (trimList l) := by
      rcases mem_wordsAux _ [] w c' hw hcw with h | h
      · exact h
      · simp at h
    obtain ⟨d, _, rfl⟩ := List.mem_map.mp this
    exact asciiLower_idem d

theorem lower_fix_canonRaw (l : List Char) : lowerList (canonRaw l) = canonRaw l := by
  have := mem_canonRaw_lower_fix l
  calc lowerList (canonRaw l) = (canonRaw l).map id := List.map_congr_left this
  _ = canonRaw l := List.map_id _

theorem collapse_fix_canonRaw (l : List Char) : collapseWs (canonRaw l) = canonRaw l := by
  show collapseWs ((collapseWs (lowerList (trimList l))).map sepToComma) = _
  rw [collapseWs_map sepToComma isPySpace_sepToComma (by decide), collapseWs_idem]
  rfl

theorem replace_fix_canonRaw (l : List Char) : replaceSeps (canonRaw l) = canonRaw l := by
  show ((collapseWs (lowerList (trimList l))).map sepToComma).map sepToComma = _
  rw [List.map_map]
  exact List.map_congr_left fun c _ => sepToComma_idem c

/-! ### Idempotence of `canonical_city` -/

theorem lookup_mem_values {α β : Type} [BEq α] (tbl : List (α × β)) (k : α) (v : β)
    (h : List.lookup k tbl = some v) : v ∈ tbl.map Prod.snd := by
  induction tbl with
  | nil => simp [List.lookup] at h
  | cons p t ih =>
    obtain ⟨a, b⟩ := p
    simp only [List.lookup] at h
    split at h
    · simp only [Option.some.injEq] at h
      subst h
      simp
    · simp only [List.map_cons, List.mem_cons]
      exact Or.inr (ih h)

theorem canonLookup_values (k v : List Char) (h : canonLookup k = some v) :
    v ∈ ["kathmandu".data, "lalitpur".data, "bhaktapur".data] := by
  have hm := lookup_mem_values CITY_CANON k v h
  simp only [CITY_CANON, List.map_cons, List.map_nil, List.mem_cons, List.not_mem_nil,
    or_false] at hm
  rcases hm with rfl | rfl | rfl | rfl | rfl | rfl | rfl | rfl | rfl <;> decide

theorem scanParts_values (ps : List (List Char)) (v : List Char)
    (h : scanParts ps = some v) : ∃ k, canonLookup k = some v := by
  induction ps with
  | nil => simp [scanParts] at h
  | cons p rest ih =>
    simp only [scanParts] at h
    split at h
    · rename_i v' hv'
      simp only [Option.some.injEq] at h
      subst h
      exact ⟨p, hv'⟩
    · split at h
      · split at h
        · rename_i hv'
          simp only [Option.some.injEq] at h
          subst h
          exact ⟨_, hv'⟩
        · exact ih h
      · exact ih h

theorem canonCore_cases (raw : List Char) :
    canonCore raw = raw ∨
      canonCore raw ∈ ["kathmandu".data, "lalitpur".data, "bhaktapur".data] := by
  unfold canonCore
  split
  · rename_i v hv
    exact Or.inr (canonLookup_values _ _ hv)
  · rename_i hnone
    split
    · rename_i v hv
      obtain ⟨k, hk⟩ := scanParts_values _ _ hv
      exact Or.inr (canonLookup_values _ _ hk)
    · split
      · split
        · rename_i v hv
          exact Or.inr (canonLookup_values _ _ hv)
        · exact Or.inl (by rw [hnone]; rfl)
      · exact Or.inl (by rw [hnone]; rfl)

theorem canonList_empty (l : List Char) (h : (lowerList (trimList l)).isEmpty = true) :
    canonList l = [] := by
  unfold canonList
  simp [h]

theorem canonList_eq (l : List Char) (h : (lowerList (trimList l)).isEmpty = false) :
    canonList l = canonCore (canonRaw l) := by
  unfold canonList
  simp [h]

theorem canonRaw_fix (l : List Char) : canonRaw (canonRaw l) = canonRaw l := by
  show replaceSeps (collapseWs (lowerList (trimList (canonRaw l)))) = canonRaw l
  rw [trim_canonRaw, lower_fix_canonRaw, collapse_fix_canonRaw, replace_fix_canonRaw]

theorem canonList_idem (l : List Char) : canonList (canonList l) = canonList l := by
  by_cases h0 : (lowerList (trimList l)).isEmpty
  · rw [canonList_empty l h0]
    decide
  · have h0' : (lowerList (trimList l)).isEmpty = false := by
      revert h0
      cases (lowerList (trimList l)).isEmpty <;> simp
    rw [canonList_eq l h0']
    rcases canonCore_cases (canonRaw l) with hc | hc
    · rw [hc]
      by_cases hnil : canonRaw l = []
      · rw [hnil]
        decide
      · have hne : (lowerList (trimList (canonRaw l))).isEmpty = false := by
          rw [trim_canonRaw, lower_fix_canonRaw]
          cases h' : canonRaw l with
          | nil => exact absurd h' hnil
          | cons a b => rfl
        rw [canonList_eq _ hne, canonRaw_fix, hc]
    · simp only [List.mem_cons, List.not_mem_nil, or_false] at hc
      rcases hc with hv | hv | hv <;> rw [hv] <;> decide

/-! ### `stripUpper` / `blood_group_allowed` lemmas -/

theorem stripUpper_some_stripUpper (x : Option String) :
    stripUpper (some (stripUpper x)) = stripUpper x := by
  show (⟨upperList (trimList (upperList (trimList ((x.getD "").data))))⟩ : String) = _
  have h1 : trimList (upperList (trimList ((x.getD "").data)))
      = upperList (trimList ((x.getD "").data)) := by
    show trimList ((trimList ((x.getD "").data)).map asciiUpper) = _
    rw [trimList_map asciiUpper isPySpace_asciiUpper, trimList_idem]
    rfl
  rw [h1]
  show (⟨((trimList ((x.getD "").data)).map asciiUpper).map asciiUpper⟩ : String) = _
  rw [List.map_map]
  exact congrArg String.mk (List.map_congr_left fun c _ => asciiUpper_idem c)

theorem compat_lookup_ne_nil (k : String) (s : List String)
    (h : COMPATIBLE_DONORS.lookup k = some s) : s.isEmpty = false := by
  have hm := lookup_mem_values COMPATIBLE_DONORS k s h
  simp only [COMPATIBLE_DONORS, List.map_cons, List.map_nil, List.mem_cons,
    List.not_mem_nil, or_false] at hm
  rcases hm with rfl | rfl | rfl | rfl | rfl | rfl | rfl | rfl <;> rfl

theorem blood_group_allowed_norm (r d : Option String) :
    blood_group_allowed r d =
      blood_group_allowed (some (stripUpper r)) (some (stripUpper d)) := by
  unfold blood_group_allowed
  rw [stripUpper_some_stripUpper, stripUpper_some_stripUpper]

theorem blood_group_allowed_true_iff (r d : Option String) :
    blood_group_allowed r d = true ↔
      ∃ s, COMPATIBLE_DONORS.lookup (stripUpper r) = some s ∧ stripUpper d ∈ s := by
  unfold blood_group_allowed
  cases h : COMPATIBLE_DONORS.lookup (stripUpper r) with
  | none => simp
  | some s =>
    have hs := compat_lookup_ne_nil _ _ h
    simp [hs, List.elem_iff]

/-! ### Eligibility fold lemmas -/

theorem foldl_pickLatest_some (l : List DonationRec) (b : DonationRec) :
    ∃ m, l.foldl pickLatest (some b) = some m := by
  induction l generalizing b with
  | nil => exact ⟨b, rfl⟩
  | cons x xs ih =>
    rw [List.foldl_cons]
    by_cases h : b.donated_at < x.donated_at
    · rw [show pickLatest (some b) x = some x by simp [pickLatest, h]]
      exact ih x
    · rw [show pickLatest (some b) x = some b by simp [pickLatest, h]]
      exact ih b

theorem foldl_pickLatest_mem (l : List DonationRec) (b m : DonationRec)
    (h : l.foldl pickLatest (some b) = some m) : m = b ∨ m ∈ l := by
  induction l generalizing b with
  | nil =>
    simp only [List.foldl_nil, Option.some.injEq] at h
    exact Or.inl h.symm
  | cons x xs ih =>
    rw [List.foldl_cons] at h
    by_cases hc : b.donated_at < x.donated_at
    · rw [show pickLatest (some b) x = some x by simp [pickLatest, hc]] at h
      rcases ih x h with rfl | hm
      · exact Or.inr (List.mem_cons_self _ _)
      · exact Or.inr (List.mem_cons_of_mem x hm)
    · rw [show pickLatest (some b) x = some b by simp [pickLatest, hc]] at h
      rcases ih b h with rfl | hm
      · exact Or.inl rfl
      · exact Or.inr (List.mem_cons_of_mem x hm)

theorem foldl_pickLatest_le (l : List DonationRec) (b m : DonationRec)
    (h : l.foldl pickLatest (some b) = some m) :
    b.donated_at ≤ m.donated_at ∧ ∀ x ∈ l, x.donated_at ≤ m.donated_at := by
  induction l generalizing b with
  | nil =>
    simp only [List.foldl_nil, Option.some.injEq] at h
    subst h
    exact ⟨le_refl _, by simp⟩
  | cons x xs ih =>
    rw [List.foldl_cons] at h
    by_cases hc : b.donated_at < x.donated_at
    · rw [show pickLatest (some b) x = some x by simp [pickLatest, hc]] at h
      obtain ⟨hx, hall⟩ := ih x h
      refine ⟨le_of_lt (lt_of_lt_of_le hc hx), ?_⟩
      intro y hy
      rcases List.mem_cons.mp hy with rfl | hy
      · exact hx
      · exact hall y hy
    · rw [show pickLatest (some b) x = some b by simp [pickLatest, hc]] at h
      obtain ⟨hb, hall⟩ := ih b h
      refine ⟨hb, ?_⟩
      intro y hy
      rcases List.mem_cons.mp hy with rfl | hy
      · exact le_trans (not_lt.mp hc) hb
      · exact hall y hy

/-! ### Claim theorems -/

/-- **C7**: `Canonicalize` (`canonical_city`) is idempotent — for every input
string `x`, `Canonicalize(Canonicalize(x)) = Canonicalize(x)` — and
alias-symmetric on the static alias table: `Canonicalize("KTM")`,
`Canonicalize("Kathmandu Valley")` and `Canonicalize("Kathmandu")` all equal
`"kathmandu"`. -/
theorem C7_canonical_city_idempotent_alias_symmetric :
    (∀ x : String, canonical_city (canonical_city x) = canonical_city x) ∧
    canonical_city "KTM" = "kathmandu" ∧
    canonical_city "Kathmandu Valley" = "kathmandu" ∧
    canonical_city "Kathmandu" = "kathmandu" := by
  refine ⟨?_, by decide, by decide, by decide⟩
  intro x
  show (⟨canonList ((⟨canonList x.data⟩ : String).data)⟩ : String) = ⟨canonList x.data⟩
  exact congrArg String.mk (canonList_idem x.data)

/-- **C10**: `blood_group_allowed` is total (a Lean function, it returns a
`Bool` on every pair of inputs, `None` included) and normalizing: it acts
through `strip().upper()` of both arguments (so `"o-"` and `" O- "` behave
like `"O-"`), returns `false` whenever the recipient group is `None`, empty,
whitespace-only or not one of the 8 table keys, and returns `true` exactly
when the normalized donor group lies in the normalized recipient's allowed
set. -/
theorem C10_blood_group_allowed_total_normalizing :
    (∀ r d : Option String,
        blood_group_allowed r d =
          blood_group_allowed (some (stripUpper r)) (some (stripUpper d))) ∧
    (∀ r d : Option String,
        blood_group_allowed r d = true ↔
          ∃ s, COMPATIBLE_DONORS.lookup (stripUpper r) = some s ∧ stripUpper d ∈ s) ∧
    (∀ d : Option String,
        blood_group_allowed none d = false ∧
        blood_group_allowed (some "") d = false ∧
        blood_group_allowed (some "   ") d = false) ∧
    (∀ r d : Option String,
        COMPATIBLE_DONORS.lookup (stripUpper r) = none → blood_group_allowed r d = false) ∧
    (∀ d : Option String,
        blood_group_allowed (some "o-") d = blood_group_allowed (some "O-") d ∧
        blood_group_allowed (some " O- ") d = blood_group_allowed (some "O-") d) := by
  have e1 : stripUpper (some "o-") = "O-" := by decide
  have e2 : stripUpper (some " O- ") = "O-" := by decide
  have e3 : stripUpper (some "O-") = "O-" := by decide
  refine ⟨blood_group_allowed_norm, blood_group_allowed_true_iff, ?_, ?_, ?_⟩
  · intro d
    have k1 : COMPATIBLE_DONORS.lookup (stripUpper none) = none := by decide
    have k2 : COMPATIBLE_DONORS.lookup (stripUpper (some "")) = none := by decide
    have k3 : COMPATIBLE_DONORS.lookup (stripUpper (some "   ")) = none := by decide
    refine ⟨?_, ?_, ?_⟩ <;> unfold blood_group_allowed
    · rw [k1]
    · rw [k2]
    · rw [k3]
  · intro r d h
    unfold blood_group_allowed
    rw [h]
  · intro d
    constructor <;> unfold blood_group_allowed
    · rw [e1, e3]
    · rw [e2, e3]

/-- Witness for C10: for the unknown key `"XX"` the function returns `false`
(the lookup-failure hypothesis discharged at a concrete input). -/
theorem C10_blood_group_allowed_witness :
    blood_group_allowed (some "XX") (some "O-") = false ∧
    blood_group_allowed (some "o-") (some "o-") = blood_group_allowed (some "O-") (some "o-") :=
  ⟨C10_blood_group_allowed_total_normalizing.2.2.2.1 (some "XX") (some "O-") (by decide),
   (C10_blood_group_allowed_total_normalizing.2.2.2.2 (some "o-")).1⟩

/-- **C3**: a donor with no VERIFIED donation is eligible with no
next-eligible date; otherwise, with `nextEligibleAt` the `donatedAt` of the
most recent VERIFIED donation plus 90 days, `is_eligible` is `false` at every
instant strictly before `nextEligibleAt` and `true` at every instant at or
after it (eligible exactly at the 90-day boundary). -/
theorem C3_is_eligible_ninety_day_cooldown
    (donations : List DonationRec) (userId : Nat) :
    ((∀ d ∈ donations, d.donor_user = some userId → d.status ≠ "VERIFIED") →
      next_eligible_datetime donations userId = none ∧
      ∀ now : Int, is_eligible donations userId now = true) ∧
    ((∃ d ∈ donations, d.donor_user = some userId ∧ d.status = "VERIFIED") →
      ∃ L, last_verified_donation donations userId = some L) ∧
    (∀ L, last_verified_donation donations userId = some L →
      L ∈ donations ∧ L.donor_user = some userId ∧ L.status = "VERIFIED" ∧
      (∀ d ∈ donations, d.donor_user = some userId → d.status = "VERIFIED" →
        d.donated_at ≤ L.donated_at) ∧
      next_eligible_datetime donations userId = some (L.donated_at + 90 * 86400) ∧
      (∀ now : Int, now < L.donated_at + 90 * 86400 →
        is_eligible donations userId now = false) ∧
      (∀ now : Int, L.donated_at + 90 * 86400 ≤ now →
        is_eligible donations userId now = true) ∧
      is_eligible donations userId (L.donated_at + 90 * 86400) = true) := by
  refine ⟨?_, ?_, ?_⟩
  · intro hnone
    have hfil : donations.filter
        (fun d => decide (d.donor_user = some userId ∧ d.status = "VERIFIED")) = [] := by
      rw [List.filter_eq_nil_iff]
      intro d hd
      simp only [decide_eq_true_eq, not_and]
      intro hu
      exact hnone d hd hu
    have hlast : last_verified_donation donations userId = none := by
      unfold last_verified_donation
      rw [hfil]
      rfl
    have hnext : next_eligible_datetime donations userId = none := by
      unfold next_eligible_datetime
      rw [hlast]
      rfl
    exact ⟨hnext, fun now => by unfold is_eligible; rw [hnext]⟩
  · rintro ⟨d, hd, hdu, hds⟩
    have hdf : d ∈ donations.filter
        (fun d => decide (d.donor_user = some userId ∧ d.status = "VERIFIED")) :=
      List.mem_filter.mpr ⟨hd, by simp [hdu, hds]⟩
    cases hfl : donations.filter
        (fun d => decide (d.donor_user = some userId ∧ d.status = "VERIFIED")) with
    | nil => rw [hfl] at hdf; simp at hdf
    | cons x xs =>
      unfold last_verified_donation
      rw [hfl, List.foldl_cons, show pickLatest none x = some x from rfl]
      exact foldl_pickLatest_some xs x
  · intro L hL
    cases hfl : donations.filter
        (fun d => decide (d.donor_user = some userId ∧ d.status = "VERIFIED")) with
    | nil =>
      exfalso
      unfold last_verified_donation at hL
      rw [hfl] at hL
      simp at hL
    | cons x xs =>
      have hL' : xs.foldl pickLatest (some x) = some L := by
        unfold last_verified_donation at hL
        rw [hfl, List.foldl_cons, show pickLatest none x = some x from rfl] at hL
        exact hL
      have hLfil : L ∈ donations.filter
          (fun d => decide (d.donor_user = some userId ∧ d.status = "VERIFIED")) := by
        rw [hfl]
        rcases foldl_pickLatest_mem xs x L hL' with rfl | hm
        · exact List.mem_cons_self _ _
        · exact List.mem_cons_of_mem x hm
      obtain ⟨hLds, hLpred⟩ := List.mem_filter.mp hLfil
      simp only [decide_eq_true_eq] at hLpred
      obtain ⟨hxle, hallxs⟩ := foldl_pickLatest_le xs x L hL'
      have hmax : ∀ d ∈ donations, d.donor_user = some userId → d.status = "VERIFIED" →
          d.donated_at ≤ L.donated_at := by
        intro d hd hdu hds
        have hdf : d ∈ donations.filter
            (fun d => decide (d.donor_user = some userId ∧ d.status = "VERIFIED")) :=
          List.mem_filter.mpr ⟨hd, by simp [hdu, hds]⟩
        rw [hfl] at hdf
        rcases List.mem_cons.mp hdf with rfl | hdf
        · exact hxle
        · exact hallxs d hdf
      have hnext : next_eligible_datetime donations userId
          = some (L.donated_at + 90 * 86400) := by
        unfold next_eligible_datetime
        rw [hL]
        rfl
      refine ⟨hLds, hLpred.1, hLpred.2, hmax, hnext, ?_, ?_, ?_⟩
      · intro now hnow
        unfold is_eligible
        rw [hnext]
        simp only [ge_iff_le, decide_eq_false_iff_not, not_le]
        exact hnow
      · intro now hnow
        unfold is_eligible
        rw [hnext]
        simp only [ge_iff_le, decide_eq_true_eq]
        exact hnow
      · unfold is_eligible
        rw [hnext]
        simp

/-- Witness for C3: one VERIFIED donation at time 0 — the donor is eligible
exactly at the 90-day boundary and not one second before. -/
theorem C3_is_eligible_witness :
    is_eligible [⟨1, none, some 1, 1, "VERIFIED", 0, none⟩] 1 ((0 : Int) + 90 * 86400) = true ∧
    is_eligible [⟨1, none, some 1, 1, "VERIFIED", 0, none⟩] 1 (7775999 : Int) = false := by
  have h := (C3_is_eligible_ninety_day_cooldown
    [⟨1, none, some 1, 1, "VERIFIED", 0, none⟩] 1).2.2
    ⟨1, none, some 1, 1, "VERIFIED", 0, none⟩ (by rfl)
  exact ⟨h.2.2.2.2.2.2.2, h.2.2.2.2.2.1 7775999 (by norm_num)⟩

/-- **C4**: every donor returned by `match_city` or `match_radius` (for any
radius and any distance function, the haversine one included) has a blood
group inside the fixed compatibility table's allowed-donor set for the
request's blood group. -/
theorem C4_matchers_respect_compatibility
    (req : ReqRec) (users : List UserRec) (donations : List DonationRec) (now : Int)
    (u : UserRec) :
    (u ∈ match_city req users donations now →
      ∃ s, COMPATIBLE_DONORS.lookup (stripUpper (some req.blood_group)) = some s ∧
        stripUpper (some u.profile.blood_group) ∈ s) ∧
    (∀ (radius_km : ℚ) (distKm : ℚ → ℚ → ℚ → ℚ → ℚ),
      u ∈ match_radius req users donations now radius_km distKm →
      ∃ s, COMPATIBLE_DONORS.lookup (stripUpper (some req.blood_group)) = some s ∧
        stripUpper (some u.profile.blood_group) ∈ s) := by
  constructor
  · intro h
    apply (blood_group_allowed_true_iff _ _).mp
    simp only [match_city] at h
    split at h
    · simp at h
    · have hm := List.mem_filter.mp h
      simp only [Bool.and_eq_true] at hm
      exact hm.2.2
  · intro radius_km distKm h
    apply (blood_group_allowed_true_iff _ _).mp
    unfold match_radius at h
    cases hlat : req.latitude with
    | none => simp only [hlat] at h; simp at h
    | some rlat =>
      cases hlon : req.longitude with
      | none => simp only [hlat, hlon] at h; simp at h
      | some rlon =>
        simp only [hlat, hlon] at h
        have hm := List.mem_filter.mp h
        simp only [Bool.and_eq_true] at hm
        exact hm.2.1.2

/-- Witness for C4: a concrete O+ request in Kathmandu matched against an O-
donor, through both the city matcher and the radius matcher. -/
theorem C4_matchers_witness :
    (∃ s, COMPATIBLE_DONORS.lookup (stripUpper (some "O+")) = some s ∧
      stripUpper (some "O-") ∈ s) ∧
    (∃ s, COMPATIBLE_DONORS.lookup (stripUpper (some "O+")) = some s ∧
      stripUpper (some "O-") ∈ s) := by
  refine ⟨?_, ?_⟩
  · exact (C4_matchers_respect_compatibility
      ⟨1, "O+", "Kathmandu", some 0, some 0, "H", 1, true, 0, true, "OPEN", none, none,
        "UNVERIFIED"⟩
      [⟨1, true, true, ⟨some "KTM", "O-", some 0, some 0⟩⟩] [] 0
      ⟨1, true, true, ⟨some "KTM", "O-", some 0, some 0⟩⟩).1 (by decide)
  · exact (C4_matchers_respect_compatibility
      ⟨1, "O+", "Kathmandu", some 0, some 0, "H", 1, true, 0, true, "OPEN", none, none,
        "UNVERIFIED"⟩
      [⟨1, true, true, ⟨some "KTM", "O-", some 0, some 0⟩⟩] [] 0
      ⟨1, true, true, ⟨some "KTM", "O-", some 0, some 0⟩⟩).2 5 (fun _ _ _ _ => 0) (by decide)

/-- **C5**: a donor with any `DonorResponse` row for the request — whatever
its status — is never pinged again by `_send_ping`, at any stage. -/
theorem C5_responded_donor_never_pinged
    (req : ReqRec) (donors : List UserRec) (stage : String)
    (responses : List RespRec) (logs : List PingLogRec)
    (now cooldown : Int) (max_repings : Nat) (u : UserRec)
    (hresp : ∃ r ∈ responses, r.request_id = req.id ∧ r.donor_id = u.id) :
    u ∉ (send_ping req donors stage responses logs now cooldown max_repings).pinged := by
  intro hmem
  have hall := (List.mem_filter.mp hmem).2
  unfold ping_allowed at hall
  rw [if_pos ?_] at hall
  · exact Bool.false_ne_true hall
  · obtain ⟨r, hr, h1, h2⟩ := hresp
    exact List.any_eq_true.mpr ⟨r, hr, by simp [h1, h2]⟩

/-- Witness for C5: a donor with a DECLINED response is not pinged. -/
theorem C5_responded_donor_witness :
    (⟨7, true, true, ⟨some "KTM", "O-", none, none⟩⟩ : UserRec) ∉
      (send_ping
        ⟨1, "O+", "Kathmandu", none, none, "H", 1, true, 0, true, "OPEN", none, none,
          "UNVERIFIED"⟩
        [⟨7, true, true, ⟨some "KTM", "O-", none, none⟩⟩] "LOOP"
        [⟨1, 7, "DECLINED"⟩] [] 1000 180 3).pinged :=
  C5_responded_donor_never_pinged _ _ _ _ _ _ _ _ _ ⟨⟨1, 7, "DECLINED"⟩, by simp, rfl, rfl⟩

/-- **C6**: once the ping log of a (request, donor) pair has
`pingCount ≥ maxRepings`, `_send_ping` never pings that donor for that
request again — whatever the elapsed time since `lastPingAt` and at every
stage. -/
theorem C6_max_repings_cap
    (req : ReqRec) (donors : List UserRec) (stage : String)
    (responses : List RespRec) (logs : List PingLogRec)
    (now cooldown : Int) (max_repings : Nat) (u : UserRec) (g : PingLogRec)
    (hfind : logs.find? (fun g' => decide (g'.request_id = req.id ∧ g'.donor_id = u.id))
      = some g)
    (hcap : max_repings ≤ g.ping_count) :
    u ∉ (send_ping req donors stage responses logs now cooldown max_repings).pinged := by
  intro hmem
  have hall := (List.mem_filter.mp hmem).2
  unfold ping_allowed at hall
  by_cases hr : responses.any (fun r => decide (r.request_id = req.id ∧ r.donor_id = u.id))
  · rw [if_pos hr] at hall
    exact Bool.false_ne_true hall
  · rw [if_neg hr] at hall
    simp only [hfind] at hall
    by_cases hcool : (match g.last_ping_at with
      | some t => decide (now - t < cooldown)
      | none => false) = true
    · rw [if_pos hcool] at hall
      exact Bool.false_ne_true hall
    · rw [if_neg hcool, if_pos hcap] at hall
      exact Bool.false_ne_true hall

/-- Witness for C6: a donor whose log shows 3 pings out of 3 allowed is not
pinged even though the last ping is far beyond the cooldown. -/
theorem C6_max_repings_witness :
    (⟨7, true, true, ⟨some "KTM", "O-", none, none⟩⟩ : UserRec) ∉
      (send_ping
        ⟨1, "O+", "Kathmandu", none, none, "H", 1, true, 0, true, "OPEN", none, none,
          "UNVERIFIED"⟩
        [⟨7, true, true, ⟨some "KTM", "O-", none, none⟩⟩] "LOOP"
        [] [⟨1, 7, "CITY", some 0, 3⟩] 1000000 180 3).pinged :=
  C6_max_repings_cap _ _ _ _ _ _ _ _ _ ⟨1, 7, "CITY", some 0, 3⟩ (by decide) (by decide)

/-- **C2**: when a donation linked to a request transitions to VERIFIED, the
verified units of that request (the saved donation included) are recomputed;
if the sum reaches `unitsNeeded` the request becomes FULFILLED and inactive
with `fulfilledAt = now`, otherwise an OPEN request advances to IN_PROGRESS
(and a non-OPEN one is untouched).  The hypothesis `1 ≤ req.units_needed` is
the data-model invariant under which `int(units_needed or 1)` is just
`units_needed`. -/
theorem C2_mark_verified_fulfillment
    (d : DonationRec) (req : ReqRec) (donations : List DonationRec) (now : Int)
    (hstat : d.status ≠ "VERIFIED") (hlink : d.request_id = some req.id)
    (hneed : 1 ≤ req.units_needed) :
    (mark_verified d req donations now).donation.status = "VERIFIED" ∧
    (req.units_needed ≤ (verified_units_for
        (donations.map (fun x => if x.id = d.id then
          { d with status := "VERIFIED", verified_at := some now } else x)) req.id : Int) →
      (mark_verified d req donations now).request.status = "FULFILLED" ∧
      (mark_verified d req donations now).request.is_active = false ∧
      (mark_verified d req donations now).request.fulfilled_at = some now) ∧
    ((verified_units_for
        (donations.map (fun x => if x.id = d.id then
          { d with status := "VERIFIED", verified_at := some now } else x)) req.id : Int)
        < req.units_needed →
      (req.status = "OPEN" →
        (mark_verified d req donations now).request.status = "IN_PROGRESS" ∧
        (mark_verified d req donations now).request.is_active = req.is_active ∧
        (mark_verified d req donations now).request.fulfilled_at = req.fulfilled_at) ∧
      (req.status ≠ "OPEN" →
        (mark_verified d req donations now).request = req)) := by
  have hm : mark_verified d req donations now =
      (if (verified_units_for
          (donations.map (fun x => if x.id = d.id then
            { d with status := "VERIFIED", verified_at := some now } else x)) req.id : Int)
          ≥ (if req.units_needed = 0 then 1 else req.units_needed) then
        ⟨{ d with status := "VERIFIED", verified_at := some now },
         { req with status := "FULFILLED", is_active := false, fulfilled_at := some now },
         match d.donor_user with
         | some _ => 150 + 20 * (d.units : Int)
         | none => 0⟩
      else if req.status = "OPEN" then
        ⟨{ d with status := "VERIFIED", verified_at := some now },
         { req with status := "IN_PROGRESS" },
         match d.donor_user with
         | some _ => 150 + 20 * (d.units : Int)
         | none => 0⟩
      else
        ⟨{ d with status := "VERIFIED", verified_at := some now }, req,
         match d.donor_user with
         | some _ => 150 + 20 * (d.units : Int)
         | none => 0⟩) := by
    unfold mark_verified
    rw [if_neg hstat]
    simp only [hlink]
  have hne : ¬(req.units_needed = 0) := by omega
  rw [hm, if_neg hne]
  by_cases hge : (verified_units_for
      (donations.map (fun x => if x.id = d.id then
        { d with status := "VERIFIED", verified_at := some now } else x)) req.id : Int)
      ≥ req.units_needed
  · rw [if_pos hge]
    refine ⟨rfl, fun _ => ⟨rfl, rfl, rfl⟩, fun hlt => absurd hge (by omega)⟩
  · rw [if_neg hge]
    by_cases hopen : req.status = "OPEN"
    · rw [if_pos hopen]
      exact ⟨rfl, fun hge' => absurd hge' (by omega), fun _ =>
        ⟨fun _ => ⟨rfl, rfl, rfl⟩, fun hno => absurd hopen hno⟩⟩
    · rw [if_neg hopen]
      exact ⟨rfl, fun hge' => absurd hge' (by omega), fun _ =>
        ⟨fun ho => absurd ho hopen, fun _ => rfl⟩⟩

/-- Witness for C2 — the spec scenario: a request needing 2 units; verifying
a first 1-unit donation makes it IN_PROGRESS, verifying a second 1-unit
donation makes it FULFILLED, inactive, with `fulfilledAt` set. -/
theorem C2_mark_verified_witness :
    (mark_verified ⟨1, some 9, some 11, 1, "COMPLETED", 0, none⟩
      ⟨9, "O+", "Kathmandu", none, none, "H", 2, true, 0, true, "OPEN", none, none,
        "UNVERIFIED"⟩
      [⟨1, some 9, some 11, 1, "COMPLETED", 0, none⟩,
       ⟨2, some 9, some 12, 1, "COMPLETED", 0, none⟩] 50).request.status = "IN_PROGRESS" ∧
    (mark_verified ⟨2, some 9, some 12, 1, "COMPLETED", 0, none⟩
      ⟨9, "O+", "Kathmandu", none, none, "H", 2, true, 0, true, "IN_PROGRESS", none, none,
        "UNVERIFIED"⟩
      [⟨1, some 9, some 11, 1, "VERIFIED", 0, some 50⟩,
       ⟨2, some 9, some 12, 1, "COMPLETED", 0, none⟩] 60).request.status = "FULFILLED" ∧
    (mark_verified ⟨2, some 9, some 12, 1, "COMPLETED", 0, none⟩
      ⟨9, "O+", "Kathmandu", none, none, "H", 2, true, 0, true, "IN_PROGRESS", none, none,
        "UNVERIFIED"⟩
      [⟨1, some 9, some 11, 1, "VERIFIED", 0, some 50⟩,
       ⟨2, some 9, some 12, 1, "COMPLETED", 0, none⟩] 60).request.is_active = false ∧
    (mark_verified ⟨2, some 9, some 12, 1, "COMPLETED", 0, none⟩
      ⟨9, "O+", "Kathmandu", none, none, "H", 2, true, 0, true, "IN_PROGRESS", none, none,
        "UNVERIFIED"⟩
      [⟨1, some 9, some 11, 1, "VERIFIED", 0, some 50⟩,
       ⟨2, some 9, some 12, 1, "COMPLETED", 0, none⟩] 60).request.fulfilled_at = some 60 := by
  refine ⟨?_, ?_, ?_, ?_⟩
  · exact (((C2_mark_verified_fulfillment
      ⟨1, some 9, some 11, 1, "COMPLETED", 0, none⟩
      ⟨9, "O+", "Kathmandu", none, none, "H", 2, true, 0, true, "OPEN", none, none,
        "UNVERIFIED"⟩
      [⟨1, some 9, some 11, 1, "COMPLETED", 0, none⟩,
       ⟨2, some 9, some 12, 1, "COMPLETED", 0, none⟩] 50
      (by decide) (by decide) (by decide)).2.2 (by decide)).1 (by decide)).1
  · exact ((C2_mark_verified_fulfillment
      ⟨2, some 9, some 12, 1, "COMPLETED", 0, none⟩
      ⟨9, "O+", "Kathmandu", none, none, "H", 2, true, 0, true, "IN_PROGRESS", none, none,
        "UNVERIFIED"⟩
      [⟨1, some 9, some 11, 1, "VERIFIED", 0, some 50⟩,
       ⟨2, some 9, some 12, 1, "COMPLETED", 0, none⟩] 60
      (by decide) (by decide) (by decide)).2.1 (by decide)).1
  · exact ((C2_mark_verified_fulfillment
      ⟨2, some 9, some 12, 1, "COMPLETED", 0, none⟩
      ⟨9, "O+", "Kathmandu", none, none, "H", 2, true, 0, true, "IN_PROGRESS", none, none,
        "UNVERIFIED"⟩
      [⟨1, some 9, some 11, 1, "VERIFIED", 0, some 50⟩,
       ⟨2, some 9, some 12, 1, "COMPLETED", 0, none⟩] 60
      (by decide) (by decide) (by decide)).2.1 (by decide)).2.1
  · exact ((C2_mark_verified_fulfillment
      ⟨2, some 9, some 12, 1, "COMPLETED", 0, none⟩
      ⟨9, "O+", "Kathmandu", none, none, "H", 2, true, 0, true, "IN_PROGRESS", none, none,
        "UNVERIFIED"⟩
      [⟨1, some 9, some 11, 1, "VERIFIED", 0, some 50⟩,
       ⟨2, some 9, some 12, 1, "COMPLETED", 0, none⟩] 60
      (by decide) (by decide) (by decide)).2.1 (by decide)).2.2

/-! ### Escalation scheduler lemmas -/

theorem state_due_skip (st : EscStateRec) (now : Int) (hdue : state_due st now = true) :
    (match st.next_run_at with
     | some t => decide (now < t)
     | none => false) = false := by
  cases hnr : st.next_run_at with
  | none => rfl
  | some t =>
    unfold state_due at hdue
    rw [hnr] at hdue
    simp only [decide_eq_true_eq] at hdue
    simp only [decide_eq_false_iff_not, not_lt]
    exact hdue

theorem mem_notify_orgs_in_city (city : String) (orgs : List OrgRec)
    (members : List MembershipRec) (uid : Nat) :
    uid ∈ notify_orgs_in_city city orgs members ↔
      (trimList city.data ≠ [] ∧
       ∃ m ∈ members, m.user_id = uid ∧ m.is_active = true ∧
         m.role ∈ (["ADMIN", "VERIFIER", "STAFF"] : List String) ∧
         ∃ o ∈ orgs, o.status = "APPROVED" ∧
           strEqCI o.city ⟨trimList city.data⟩ = true ∧ o.id = m.organization_id) := by
  unfold notify_orgs_in_city
  by_cases hc : (⟨trimList city.data⟩ : String).data.isEmpty
  · rw [if_pos hc]
    have hnil : trimList city.data = [] := by
      rw [← List.isEmpty_iff]
      exact hc
    simp [hnil]
  · rw [if_neg hc]
    have hne : trimList city.data ≠ [] := by
      intro h
      exact hc (by rw [show (⟨trimList city.data⟩ : String).data = trimList city.data from rfl, h]; rfl)
    by_cases ha : (orgs.filter
        (fun o => decide (o.status = "APPROVED") && strEqCI o.city ⟨trimList city.data⟩)).isEmpty
    · rw [if_pos ha]
      have hfil : orgs.filter
          (fun o => decide (o.status = "APPROVED") && strEqCI o.city ⟨trimList city.data⟩)
          = [] := List.isEmpty_iff.mp ha
      rw [List.filter_eq_nil_iff] at hfil
      simp only [List.not_mem_nil, false_iff, not_and]
      intro _
      rintro ⟨m, hm, _, _, _, o, ho, hostat, hocity, _⟩
      exact hfil o ho (by simp [hostat, hocity])
    · rw [if_neg ha]
      constructor
      · intro hmem
        obtain ⟨m, hmfil, huid⟩ := List.mem_map.mp hmem
        obtain ⟨hm, hpred⟩ := List.mem_filter.mp hmfil
        simp only [Bool.and_eq_true] at hpred
        obtain ⟨⟨hany, hact⟩, hrole⟩ := hpred
        obtain ⟨o, hofil, hoid⟩ := List.any_eq_true.mp hany
        obtain ⟨hoorgs, hpred2⟩ := List.mem_filter.mp hofil
        simp only [Bool.and_eq_true, decide_eq_true_eq] at hpred2
        simp only [decide_eq_true_eq] at hoid
        exact ⟨hne, m, hm, huid, hact, List.elem_iff.mp hrole, o, hoorgs, hpred2.1,
          hpred2.2, hoid⟩
      · rintro ⟨_, m, hm, huid, hact, hrole, o, ho, hostat, hocity, hoid⟩
        apply List.mem_map.mpr
        refine ⟨m, List.mem_filter.mpr ⟨hm, ?_⟩, huid⟩
        simp only [Bool.and_eq_true]
        refine ⟨⟨?_, hact⟩, List.elem_iff.mpr hrole⟩
        apply List.any_eq_true.mpr
        exact ⟨o, List.mem_filter.mpr ⟨ho, by simp [hostat, hocity]⟩, by simp [hoid]⟩

theorem handleOne_no_term
    (req : ReqRec) (st : EscStateRec) (responses : List RespRec)
    (donations : List DonationRec) (orgs : List OrgRec) (members : List MembershipRec)
    (pingSent : String → Nat) (now max_minutes loop_interval_minutes : Int)
    (hdone : st.is_done = false) (hdue : state_due st now = true)
    (hacc : responses.any (fun r => decide (r.request_id = req.id ∧ r.status = "ACCEPTED"))
      = false)
    (hdon : donations.any (fun d => decide (d.request_id = some req.id)) = false)
    (hactive : req.is_active = true)
    (hsf : req.status ≠ "FULFILLED") (hsc : req.status ≠ "CANCELLED")
    (hage : ¬(req.created_at < now - max_minutes * 60)) :
    handleOne req st responses donations orgs members pingSent now max_minutes
      loop_interval_minutes
      = stage_transition req st orgs members pingSent now loop_interval_minutes := by
  have hskip := state_due_skip st now hdue
  have h1 : ¬((responses.any (fun r => decide (r.request_id = req.id ∧ r.status = "ACCEPTED"))
      || donations.any (fun d => decide (d.request_id = some req.id))
      || !req.is_active
      || decide (req.status = "FULFILLED")
      || decide (req.status = "CANCELLED")) = true) := by
    rw [hacc, hdon, hactive]
    simp [hsf, hsc]
  unfold handleOne
  rw [if_neg (by simp [hdone]), if_neg (by simp [hskip]), if_neg h1, if_neg hage]

theorem stage_transition_org (req : ReqRec) (st : EscStateRec) (orgs : List OrgRec)
    (members : List MembershipRec) (pingSent : String → Nat)
    (now loop_interval_minutes : Int) (hstage : st.stage = "ORG") :
    stage_transition req st orgs members pingSent now loop_interval_minutes =
      ⟨req, ⟨"LOOP", schedule_next now loop_interval_minutes, some now, false⟩, [],
        notify_orgs_in_city req.location_city orgs members, []⟩ := by
  simp [stage_transition, hstage]

/-- **C1**: for an in-scope request (emergency, active, OPEN/IN_PROGRESS,
not REJECTED) carrying coordinates, every due tick with no termination
condition advances the stage along CITY → RADIUS_5 → RADIUS_10 → ORG → LOOP
→ LOOP → … (the `succStage` order), leaving the state non-terminal; and at
any due tick at which an ACCEPTED response exists, or any donation exists
for the request, or the request is inactive or FULFILLED/CANCELLED, or the
request is older than the maximum escalation window, the state becomes
`stage = DONE`, `isDone = true`, `nextRunAt = null` — whatever the current
stage. -/
theorem C1_escalation_stage_order
    (req : ReqRec) (st : EscStateRec) (responses : List RespRec)
    (donations : List DonationRec) (orgs : List OrgRec) (members : List MembershipRec)
    (pingSent : String → Nat) (now max_minutes loop_interval_minutes : Int)
    (hdone : st.is_done = false) (hdue : state_due st now = true) :
    ((responses.any (fun r => decide (r.request_id = req.id ∧ r.status = "ACCEPTED")) = true ∨
      donations.any (fun d => decide (d.request_id = some req.id)) = true ∨
      req.is_active = false ∨ req.status = "FULFILLED" ∨ req.status = "CANCELLED" ∨
      req.created_at < now - max_minutes * 60) →
      (handleOne req st responses donations orgs members pingSent now max_minutes
        loop_interval_minutes).state = ⟨"DONE", none, some now, true⟩) ∧
    (request_in_scope req = true →
     responses.any (fun r => decide (r.request_id = req.id ∧ r.status = "ACCEPTED")) = false →
     donations.any (fun d => decide (d.request_id = some req.id)) = false →
     ¬(req.created_at < now - max_minutes * 60) →
     req.latitude.isSome = true → req.longitude.isSome = true →
     st.stage ∈ (["CITY", "RADIUS_5", "RADIUS_10", "ORG", "LOOP"] : List String) →
     (handleOne req st responses donations orgs members pingSent now max_minutes
        loop_interval_minutes).state.stage = succStage st.stage ∧
     (handleOne req st responses donations orgs members pingSent now max_minutes
        loop_interval_minutes).state.is_done = false ∧
     (handleOne req st responses donations orgs members pingSent now max_minutes
        loop_interval_minutes).state.next_run_at ≠ none) := by
  have hskip := state_due_skip st now hdue
  constructor
  · intro hterm
    unfold handleOne
    rw [if_neg (by simp [hdone]), if_neg (by simp [hskip])]
    by_cases h1 : (responses.any (fun r => decide (r.request_id = req.id ∧ r.status = "ACCEPTED"))
        || donations.any (fun d => decide (d.request_id = some req.id))
        || !req.is_active
        || decide (req.status = "FULFILLED")
        || decide (req.status = "CANCELLED")) = true
    · rw [if_pos h1]
    · rw [if_neg h1]
      obtain ⟨⟨⟨⟨ha', hb'⟩, hc'⟩, hd'⟩, he'⟩ :
          ((((responses.any (fun r => decide (r.request_id = req.id ∧ r.status = "ACCEPTED"))
              = false) ∧
            (donations.any (fun d => decide (d.request_id = some req.id)) = false)) ∧
            ((!req.is_active) = false)) ∧
            (decide (req.status = "FULFILLED") = false)) ∧
            (decide (req.status = "CANCELLED") = false) := by
        simpa only [Bool.or_eq_true, not_or, Bool.not_eq_true] using h1
      have hage : req.created_at < now - max_minutes * 60 := by
        rcases hterm with h | h | h | h | h | h
        · rw [ha'] at h
          exact absurd h Bool.false_ne_true
        · rw [hb'] at h
          exact absurd h Bool.false_ne_true
        · rw [h] at hc'
          simp at hc'
        · rw [h] at hd'
          simp at hd'
        · rw [h] at he'
          simp at he'
        · exact h
      rw [if_pos hage]
  · intro hscope hacc hdon hage hlat hlon hstage
    simp only [request_in_scope, Bool.and_eq_true, Bool.or_eq_true, Bool.not_eq_true',
      decide_eq_true_eq, decide_eq_false_iff_not] at hscope
    obtain ⟨⟨⟨hemergency, hactive⟩, hstatus⟩, hver⟩ := hscope
    have hsf : req.status ≠ "FULFILLED" := by
      rcases hstatus with h | h <;> rw [h] <;> decide
    have hsc : req.status ≠ "CANCELLED" := by
      rcases hstatus with h | h <;> rw [h] <;> decide
    have hgps : (req.latitude.isSome && req.longitude.isSome) = true := by
      rw [hlat, hlon]
      rfl
    rw [handleOne_no_term req st responses donations orgs members pingSent now max_minutes
      loop_interval_minutes hdone hdue hacc hdon hactive hsf hsc hage]
    simp only [List.mem_cons, List.not_mem_nil, or_false] at hstage
    rcases hstage with h | h | h | h | h <;>
      simp [stage_transition, h, hgps, succStage, schedule_next]

/-- Witness for C1: a due CITY-stage state with GPS and no termination
condition advances to RADIUS_5; with an ACCEPTED response present it goes
straight to DONE. -/
theorem C1_escalation_witness :
    ((handleOne
        ⟨1, "O+", "Kathmandu", some 0, some 0, "H", 1, true, 0, true, "OPEN", none, none,
          "UNVERIFIED"⟩
        ⟨"CITY", some 0, none, false⟩ [] [] [] [] (fun _ => 0) 10 60 1).state.stage
      = succStage "CITY") ∧
    ((handleOne
        ⟨1, "O+", "Kathmandu", some 0, some 0, "H", 1, true, 0, true, "OPEN", none, none,
          "UNVERIFIED"⟩
        ⟨"RADIUS_5", some 0, none, false⟩ [⟨1, 7, "ACCEPTED"⟩] [] [] [] (fun _ => 0) 10 60 1).state
      = ⟨"DONE", none, some 10, true⟩) := by
  constructor
  · exact ((C1_escalation_stage_order
      ⟨1, "O+", "Kathmandu", some 0, some 0, "H", 1, true, 0, true, "OPEN", none, none,
        "UNVERIFIED"⟩
      ⟨"CITY", some 0, none, false⟩ [] [] [] [] (fun _ => 0) 10 60 1 rfl (by decide)).2
      (by decide) (by decide) (by decide) (by decide) (by decide) (by decide)
      (by decide)).1
  · exact (C1_escalation_stage_order
      ⟨1, "O+", "Kathmandu", some 0, some 0, "H", 1, true, 0, true, "OPEN", none, none,
        "UNVERIFIED"⟩
      ⟨"RADIUS_5", some 0, none, false⟩ [⟨1, 7, "ACCEPTED"⟩] [] [] [] (fun _ => 0) 10 60 1
      rfl (by decide)).1 (Or.inl (by decide))

/-- **C9**: when a due tick terminates escalation because the request is
older than the maximum window, only the escalation state changes (`DONE`,
`isDone`, `nextRunAt = null`, `lastRunAt = now`); the request row is
returned unchanged — not closed, not cancelled — and no ping or
notification is emitted. -/
theorem C9_age_cutoff_frame
    (req : ReqRec) (st : EscStateRec) (responses : List RespRec)
    (donations : List DonationRec) (orgs : List OrgRec) (members : List MembershipRec)
    (pingSent : String → Nat) (now max_minutes loop_interval_minutes : Int)
    (hdone : st.is_done = false) (hdue : state_due st now = true)
    (hacc : responses.any (fun r => decide (r.request_id = req.id ∧ r.status = "ACCEPTED"))
      = false)
    (hdon : donations.any (fun d => decide (d.request_id = some req.id)) = false)
    (hactive : req.is_active = true)
    (hsf : req.status ≠ "FULFILLED") (hsc : req.status ≠ "CANCELLED")
    (hage : req.created_at < now - max_minutes * 60) :
    (handleOne req st responses donations orgs members pingSent now max_minutes
      loop_interval_minutes).request = req ∧
    (handleOne req st responses donations orgs members pingSent now max_minutes
      loop_interval_minutes).state = ⟨"DONE", none, some now, true⟩ ∧
    (handleOne req st responses donations orgs members pingSent now max_minutes
      loop_interval_minutes).pings = [] ∧
    (handleOne req st responses donations orgs members pingSent now max_minutes
      loop_interval_minutes).org_notified = [] ∧
    (handleOne req st responses donations orgs members pingSent now max_minutes
      loop_interval_minutes).requester_notices = [] := by
  have hskip := state_due_skip st now hdue
  have h1 : ¬((responses.any (fun r => decide (r.request_id = req.id ∧ r.status = "ACCEPTED"))
      || donations.any (fun d => decide (d.request_id = some req.id))
      || !req.is_active
      || decide (req.status = "FULFILLED")
      || decide (req.status = "CANCELLED")) = true) := by
    rw [hacc, hdon, hactive]
    simp [hsf, hsc]
  unfold handleOne
  rw [if_neg (by simp [hdone]), if_neg (by simp [hskip]), if_neg h1, if_pos hage]
  exact ⟨rfl, rfl, rfl, rfl, rfl⟩

/-- Witness for C9: a 2-hour-old request under a 60-minute window — the
state is closed, the request row untouched. -/
theorem C9_age_cutoff_witness :
    (handleOne
      ⟨1, "O+", "Kathmandu", none, none, "H", 1, true, 0, true, "OPEN", none, none,
        "UNVERIFIED"⟩
      ⟨"LOOP", some 7000, none, false⟩ [] [] [] [] (fun _ => 0) 7200 60 1).request
      = ⟨1, "O+", "Kathmandu", none, none, "H", 1, true, 0, true, "OPEN", none, none,
        "UNVERIFIED"⟩ ∧
    (handleOne
      ⟨1, "O+", "Kathmandu", none, none, "H", 1, true, 0, true, "OPEN", none, none,
        "UNVERIFIED"⟩
      ⟨"LOOP", some 7000, none, false⟩ [] [] [] [] (fun _ => 0) 7200 60 1).state
      = ⟨"DONE", none, some 7200, true⟩ := by
  have h := C9_age_cutoff_frame
    ⟨1, "O+", "Kathmandu", none, none, "H", 1, true, 0, true, "OPEN", none, none,
      "UNVERIFIED"⟩
    ⟨"LOOP", some 7000, none, false⟩ [] [] [] [] (fun _ => 0) 7200 60 1
    rfl (by decide) (by decide) (by decide) rfl (by decide) (by decide) (by decide)
  exact ⟨h.1, h.2.1⟩

/-- **C8**: at the ORG stage, a due tick with no termination condition
notifies exactly the active ADMIN/VERIFIER/STAFF members of the approved
organizations in the request's city, and advances the state to LOOP (not a
terminal stage). -/
theorem C8_org_stage_notifies_and_loops
    (req : ReqRec) (st : EscStateRec) (responses : List RespRec)
    (donations : List DonationRec) (orgs : List OrgRec) (members : List MembershipRec)
    (pingSent : String → Nat) (now max_minutes loop_interval_minutes : Int)
    (hdone : st.is_done = false) (hdue : state_due st now = true)
    (hacc : responses.any (fun r => decide (r.request_id = req.id ∧ r.status = "ACCEPTED"))
      = false)
    (hdon : donations.any (fun d => decide (d.request_id = some req.id)) = false)
    (hactive : req.is_active = true)
    (hsf : req.status ≠ "FULFILLED") (hsc : req.status ≠ "CANCELLED")
    (hage : ¬(req.created_at < now - max_minutes * 60))
    (hstage : st.stage = "ORG") :
    (handleOne req st responses donations orgs members pingSent now max_minutes
      loop_interval_minutes).state.stage = "LOOP" ∧
    (handleOne req st responses donations orgs members pingSent now max_minutes
      loop_interval_minutes).state.is_done = false ∧
    (handleOne req st responses donations orgs members pingSent now max_minutes
      loop_interval_minutes).state.next_run_at = schedule_next now loop_interval_minutes ∧
    (handleOne req st responses donations orgs members pingSent now max_minutes
      loop_interval_minutes).org_notified = notify_orgs_in_city req.location_city orgs members ∧
    (∀ uid, uid ∈ (handleOne req st responses donations orgs members pingSent now max_minutes
        loop_interval_minutes).org_notified ↔
      (trimList req.location_city.data ≠ [] ∧
       ∃ m ∈ members, m.user_id = uid ∧ m.is_active = true ∧
         m.role ∈ (["ADMIN", "VERIFIER", "STAFF"] : List String) ∧
         ∃ o ∈ orgs, o.status = "APPROVED" ∧
           strEqCI o.city ⟨trimList req.location_city.data⟩ = true ∧
           o.id = m.organization_id)) := by
  have hred : handleOne req st responses donations orgs members pingSent now max_minutes
      loop_interval_minutes =
      ⟨req, ⟨"LOOP", schedule_next now loop_interval_minutes, some now, false⟩, [],
        notify_orgs_in_city req.location_city orgs members, []⟩ := by
    rw [handleOne_no_term req st responses donations orgs members pingSent now max_minutes
        loop_interval_minutes hdone hdue hacc hdon hactive hsf hsc hage,
      stage_transition_org req st orgs members pingSent now loop_interval_minutes hstage]
  rw [hred]
  exact ⟨rfl, rfl, rfl, rfl, fun uid => mem_notify_orgs_in_city _ _ _ _⟩

/-- Witness for C8: a due ORG-stage tick over one approved Kathmandu
organization with one active ADMIN member (user 42) notifies exactly user
42 and moves to LOOP. -/
theorem C8_org_stage_witness :
    (handleOne
      ⟨1, "O+", "Kathmandu", none, none, "H", 1, true, 0, true, "OPEN", none, none,
        "UNVERIFIED"⟩
      ⟨"ORG", some 0, none, false⟩ [] [] [⟨5, "APPROVED", "kathmandu"⟩]
      [⟨5, 42, true, "ADMIN"⟩] (fun _ => 0) 10 60 1).state.stage = "LOOP" ∧
    ((42 : Nat) ∈ (handleOne
      ⟨1, "O+", "Kathmandu", none, none, "H", 1, true, 0, true, "OPEN", none, none,
        "UNVERIFIED"⟩
      ⟨"ORG", some 0, none, false⟩ [] [] [⟨5, "APPROVED", "kathmandu"⟩]
      [⟨5, 42, true, "ADMIN"⟩] (fun _ => 0) 10 60 1).org_notified ↔
     (trimList ("Kathmandu" : String).data ≠ [] ∧
      ∃ m ∈ [(⟨5, 42, true, "ADMIN"⟩ : MembershipRec)], m.user_id = 42 ∧ m.is_active = true ∧
        m.role ∈ (["ADMIN", "VERIFIER", "STAFF"] : List String) ∧
        ∃ o ∈ [(⟨5, "APPROVED", "kathmandu"⟩ : OrgRec)], o.status = "APPROVED" ∧
          strEqCI o.city ⟨trimList ("Kathmandu" : String).data⟩ = true ∧
          o.id = m.organization_id)) := by
  have h := C8_org_stage_notifies_and_loops
    ⟨1, "O+", "Kathmandu", none, none, "H", 1, true, 0, true, "OPEN", none, none,
      "UNVERIFIED"⟩
    ⟨"ORG", some 0, none, false⟩ [] [] [⟨5, "APPROVED", "kathmandu"⟩]
    [⟨5, 42, true, "ADMIN"⟩] (fun _ => 0) 10 60 1
    rfl (by decide) (by decide) (by decide) rfl (by decide) (by decide) (by decide) rfl
  exact ⟨h.1, h.2.2.2.2 42⟩

example : canonical_city "KTM" = "kathmandu" := by decide
example : canonical_city "Kathmandu Valley" = "kathmandu" := by decide
example : canonical_city "Kathmandu" = "kathmandu" := by decide
example : canonical_city "Asan, Kathmandu" = "kathmandu" := by decide
example : canonical_city "Mangalbazar, Lalitpur" = "lalitpur" := by decide
example : canonical_city "asan kathmandu" = "kathmandu" := by decide
example : canonical_city "  Pokhara  City " = "pokhara city" := by decide
example : canonical_city "pokhara city" = "pokhara city" := by decide
example : blood_group_allowed (some "o-") (some " O- ") = true := by decide
example : blood_group_allowed (some "O-") (some "A+") = false := by decide
example : blood_group_allowed none (some "O-") = false := by decide
example : city_aliases "KTM" = ["kathmandu", "ktm", "kathmandu city", "kathmandu valley"] := by decide
